import Mathlib

/-!
# RustyRunways core engine: a shallow embedding

This file embeds the data model and the operations of the RustyRunways
simulation engine (crate `rusty_runways_core`, with some components shared
with the earlier prototype under `src/`) and proves properties of the
embedded operations.

Modelling conventions:

* `f32` quantities (cash, fuel, weights, fees) are modelled as `ℚ` with exact
  arithmetic; `u64`/`usize` quantities as `ℕ`.
* Euclidean distances are irrational in general (`sqrt`), so operations that
  consume a distance receive the already-computed distance as an explicit
  `ℚ` argument (standing for the `f32` value `distance_to` returns).  Every
  theorem quantifies over that argument, so nothing depends on the rounding
  of the square root.
* A Rust function that can panic (out-of-bounds indexing, `unwrap`) is
  modelled with an `Option` layer: `none` is the panic.
* A Rust method on `&mut self` that can return an error after having already
  mutated `self` is modelled by returning the final state together with an
  optional error.
-/

namespace RustyRunways

/-- 2-D coordinate, from `utils/coordinate.rs` (`x, y : f32`, exact equality). -/
structure Coordinate where
  x : ℚ
  y : ℚ
deriving DecidableEq, Repr

/-- Modelled from the spec: `CargoKind` is a closed enumeration of 18 cargo
kinds (the file `utils/orders/cargo.rs` is not in the sources).  No claim
depends on the identity of a kind, so a kind is represented by its index. -/
structure CargoType where
  idx : Fin 18
deriving DecidableEq, Repr

/-- A cargo order, from `crates/core/src/utils/orders/order.rs`. -/
structure Order where
  id : ℕ
  name : CargoType
  weight : ℚ
  value : ℚ
  deadline : ℕ
  origin_id : ℕ
  destination_id : ℕ
deriving DecidableEq, Repr

/-- Order-generation tuning, from `crates/core/src/utils/orders/order.rs`. -/
structure OrderGenerationParams where
  max_deadline_hours : ℕ
  min_weight : ℚ
  max_weight : ℚ
  alpha : ℚ
  beta : ℚ
deriving DecidableEq, Repr

/-- An airport, from `crates/core/src/utils/airport.rs`. -/
structure Airport where
  id : ℕ
  name : String
  runway_length : ℚ
  fuel_price : ℚ
  landing_fee : ℚ
  parking_fee : ℚ
  orders : List Order
deriving DecidableEq, Repr

/-- `Airport::update_deadline` (`crates/core/src/utils/airport.rs`, lines
109-117): first `retain` the orders whose deadline is nonzero, then decrement
every remaining order's deadline by one. -/
def Airport.update_deadline (a : Airport) : Airport :=
  { a with
    orders := (a.orders.filter (fun o => o.deadline ≠ 0)).map
      (fun o => { o with deadline := o.deadline - 1 }) }

/-- The destination draw of `Order::new`
(`crates/core/src/utils/orders/order.rs`, lines 69-72).  `draw` stands for
the value of `rng.gen_range(0..num_airports)`, which is always in
`[0, num_airports)`; if it equals the origin it is replaced by
`(draw + 1) % num_airports`. -/
def Order.pick_destination (draw origin_airport_id num_airports : ℕ) : ℕ :=
  if draw = origin_airport_id then (draw + 1) % num_airports else draw

/-- The eight airplane models, from `utils/airplanes/models.rs`. -/
inductive AirplaneModel where
  | SparrowLight
  | FalconJet
  | CometRegional
  | Atlas
  | TitanHeavy
  | Goliath
  | Zephyr
  | Lightning
deriving DecidableEq, Repr

/-- The `Debug` name of a model, as produced by `format!("{:?}", m)`. -/
def AirplaneModel.modelName : AirplaneModel → String
  | .SparrowLight => "SparrowLight"
  | .FalconJet => "FalconJet"
  | .CometRegional => "CometRegional"
  | .Atlas => "Atlas"
  | .TitanHeavy => "TitanHeavy"
  | .Goliath => "Goliath"
  | .Zephyr => "Zephyr"
  | .Lightning => "Lightning"

/-- The models in declaration order (the order `AirplaneModel::iter()` yields). -/
def AirplaneModel.allModels : List AirplaneModel :=
  [.SparrowLight, .FalconJet, .CometRegional, .Atlas, .TitanHeavy, .Goliath,
   .Zephyr, .Lightning]

/-- Fixed per-model specification record, from `utils/airplanes/models.rs`
(the core crate's copy additionally carries `min_runway_length`, which the
core test suite reads). -/
structure AirplaneSpecs where
  mtow : ℚ
  cruise_speed : ℚ
  fuel_capacity : ℚ
  fuel_consumption : ℚ
  operating_cost : ℚ
  payload_capacity : ℚ
  purchase_price : ℚ
  min_runway_length : ℚ
deriving DecidableEq, Repr

/-- The model table of `AirplaneModel::specs` (`utils/airplanes/models.rs`).
The seven economic/flight fields are the source values.  Modelled from the
spec: `min_runway_length` (the core `models.rs` is not in the sources) is
derived from mtow and cruise speed, heavier or faster meaning longer; the
`SparrowLight` value 407.5 is pinned by `crates/core/tests/airplane_tests.rs`
and the other models carry nominal values respecting that monotonicity.  No
claim below depends on the exact value for any model. -/
def AirplaneModel.specs : AirplaneModel → AirplaneSpecs
  | .SparrowLight =>
    ⟨5000, 250, 200, 30, 300, 500, 200000, 815/2⟩
  | .FalconJet =>
    ⟨8000, 800, 2000, 250, 1500, 1500, 1500000, 1000⟩
  | .CometRegional =>
    ⟨20000, 700, 5000, 600, 3000, 5000, 10000000, 1500⟩
  | .Atlas =>
    ⟨40000, 750, 12000, 1500, 6000, 15000, 30000000, 2000⟩
  | .TitanHeavy =>
    ⟨100000, 650, 20000, 3000, 10000, 50000, 60000000, 2800⟩
  | .Goliath =>
    ⟨200000, 550, 40000, 6000, 20000, 100000, 120000000, 3500⟩
  | .Zephyr =>
    ⟨50000, 900, 25000, 1200, 8000, 25000, 50000000, 2500⟩
  | .Lightning =>
    ⟨15000, 1800, 5000, 1000, 12000, 2000, 80000000, 2600⟩

/-- Airplane status, the tagged variant of the core crate: the `InTransit`
payload `(hours_remaining, destination, origin, total_hours)` is the one the
core `game.rs` constructs and matches on; `Broken` is the reserved variant
named by the spec. -/
inductive AirplaneStatus where
  | Parked
  | Refueling
  | Maintenance
  | Loading
  | Unloading
  | Broken
  | InTransit (hours_remaining : ℕ) (destination : ℕ) (origin : Coordinate)
      (total_hours : ℕ)
deriving DecidableEq, Repr

/-- Game errors, from `crates/core/src/utils/errors.rs`. -/
inductive GameError where
  | OutOfRange (distance range : ℚ)
  | RunwayTooShort (required available : ℚ)
  | MaxPayloadReached (current_capacity maximum_capacity added_weight : ℚ)
  | OrderIdInvalid (id : ℕ)
  | PlaneIdInvalid (id : ℕ)
  | AirportIdInvalid (id : ℕ)
  | AirportLocationInvalid (location : Coordinate)
  | PlaneNotAtAirport (plane_id : ℕ)
  | PlaneNotReady (plane_state : AirplaneStatus)
  | InsufficientFunds (have' need : ℚ)
  | InsufficientFuel (have' need : ℚ)
  | UnknownModel (input : String) (suggestion : Option String)
  | NoCargo
  | SameAirport
deriving DecidableEq, Repr

/-- An airplane, from `utils/airplanes/airplane.rs`. -/
structure Airplane where
  id : ℕ
  model : AirplaneModel
  specs : AirplaneSpecs
  status : AirplaneStatus
  location : Coordinate
  current_fuel : ℚ
  current_payload : ℚ
  manifest : List Order
deriving DecidableEq, Repr

/-- `Airplane::new`: parked and fueled up at the home coordinate. -/
def Airplane.new (id : ℕ) (model : AirplaneModel) (home : Coordinate) :
    Airplane :=
  { id := id
    model := model
    specs := model.specs
    status := .Parked
    location := home
    current_fuel := model.specs.fuel_capacity
    current_payload := 0
    manifest := [] }

/-- `Airplane::endurance_hours`: `current_fuel / fuel_consumption`. -/
def Airplane.endurance_hours (p : Airplane) : ℚ :=
  p.current_fuel / p.specs.fuel_consumption

/-- `Airplane::max_range`: `endurance_hours() * cruise_speed`. -/
def Airplane.max_range (p : Airplane) : ℚ :=
  p.endurance_hours * p.specs.cruise_speed

/-- `Airplane::can_fly_to` (`src/utils/airplanes/airplane.rs`, lines 53-76).
`dist` is the already-computed `distance_to` value.  Returns `some e` for the
error the source returns, `none` for `Ok(())`. -/
def Airplane.can_fly_to (p : Airplane) (airport : Airport) (dist : ℚ) :
    Option GameError :=
  if p.max_range < dist then
    some (.OutOfRange dist p.max_range)
  else if airport.runway_length < p.specs.min_runway_length then
    some (.RunwayTooShort p.specs.min_runway_length airport.runway_length)
  else
    none

/-- `Airplane::load_order` (`src/utils/airplanes/airplane.rs`, lines 79-92):
if the order fits, add its weight to the payload, push it on the manifest and
switch to `Loading`; otherwise `MaxPayloadReached` and no change. -/
def Airplane.load_order (p : Airplane) (order : Order) :
    Except GameError Airplane :=
  if p.current_payload + order.weight ≤ p.specs.payload_capacity then
    .ok { p with
      current_payload := p.current_payload + order.weight
      manifest := p.manifest ++ [order]
      status := .Loading }
  else
    .error (.MaxPayloadReached p.current_payload p.specs.payload_capacity
      order.weight)

/-- `Airplane::unload_all` (`src/utils/airplanes/airplane.rs`, lines 95-100):
drain the manifest, zero the payload, switch to `Unloading`; returns the
drained orders. -/
def Airplane.unload_all (p : Airplane) : List Order × Airplane :=
  (p.manifest,
   { p with manifest := [], current_payload := 0, status := .Unloading })

/-- Remove the first order with the given id from a manifest. -/
def removeFirstById : List Order → ℕ → Option (Order × List Order)
  | [], _ => none
  | o :: rest, oid =>
    if o.id = oid then some (o, rest)
    else (removeFirstById rest oid).map (fun fr => (fr.1, o :: fr.2))

/-- Modelled from the spec: `unload_order(id) → Ok(order) | OrderIdInvalid`
(spec section 4.4; the core `airplane.rs` is not in the sources, only its
caller `game.rs` and its tests).  Removes the first manifest order with the
given id, subtracts its weight from the payload, and switches to `Unloading`
(the spec's `Parked --unload_*--> Unloading` transition). -/
def Airplane.unload_order (p : Airplane) (order_id : ℕ) :
    Except GameError (Order × Airplane) :=
  match removeFirstById p.manifest order_id with
  | none => .error (.OrderIdInvalid order_id)
  | some (o, rest) =>
    .ok (o, { p with
      manifest := rest
      current_payload := p.current_payload - o.weight
      status := .Unloading })

/-- `Airplane::refuel` (`src/utils/airplanes/airplane.rs`, lines 134-139):
fuel to capacity, status `Refueling`. -/
def Airplane.refuel (p : Airplane) : Airplane :=
  { p with current_fuel := p.specs.fuel_capacity, status := .Refueling }

/-- Modelled from the spec: `consume_flight_fuel(airport, coord) →
Ok(flight_hours) | same errors as can_fly_to | InsufficientFuel` (spec
section 4.4; the core `airplane.rs` is not in the sources).  Validates first
(`can_fly_to`, then the fuel check), then reduces `current_fuel` by
`flight_hours * fuel_consumption` with `flight_hours = ceil(dist /
cruise_speed)` as integer hours.  The core test
`flying_consumes_status` pins that the location is unchanged. -/
def Airplane.consume_flight_fuel (p : Airplane) (airport : Airport)
    (dist : ℚ) : Except GameError (ℕ × Airplane) :=
  match p.can_fly_to airport dist with
  | some e => .error e
  | none =>
    let flight_hours : ℕ := (Int.ceil (dist / p.specs.cruise_speed)).toNat
    let fuel_needed : ℚ := (flight_hours : ℚ) * p.specs.fuel_consumption
    if fuel_needed ≤ p.current_fuel then
      .ok (flight_hours, { p with current_fuel := p.current_fuel - fuel_needed })
    else
      .error (.InsufficientFuel p.current_fuel fuel_needed)

/-! ## The event queue

`src/src/events.rs` defines `ScheduledEvent { time, event }` whose `Ord`
compares **only** the `time` field, reversed (`other.time.cmp(&self.time)`)
so that `std::collections::BinaryHeap` — a max-heap — pops the earliest time
first.  The core crate's `game.rs` stores its events in exactly such a
`BinaryHeap<ScheduledEvent>` and pushes with `self.events.push(...)`.

The heap below is the Rust standard library's `BinaryHeap` algorithm
(`push` = append then `sift_up`; `pop` = swap the last element into the root
and `sift_down_to_bottom`, which walks the hole to the bottom always taking
the greater child — the right child on ties — and then sifts up).  The sift
loops are written with an explicit fuel counter for structural recursion;
the fuel arguments given by the wrappers are always sufficient because
`sift_up` strictly decreases the position and the walk strictly increases
it below `endIdx`. -/

/-- A scheduled event: a time plus a payload.  The payload type is a
parameter: the engine instantiates it with `Event`; it never participates in
the ordering. -/
structure Sched (α : Type) where
  time : ℕ
  event : α
deriving DecidableEq, Repr

namespace Sched

/-- The `Ord` of `ScheduledEvent` (`src/src/events.rs`, lines 39-56):
`cmp(self, other) = other.time.cmp(&self.time)`, so `a ≤ b` in the heap's
order iff `b.time ≤ a.time`; the event payload is ignored. -/
def cmpLe (a b : Sched α) : Bool := b.time ≤ a.time

end Sched

/-- Total indexing used by the sift routines; all call sites stay in range. -/
def getSched [Inhabited α] (l : List (Sched α)) (i : ℕ) : Sched α :=
  (l[i]?).getD ⟨0, default⟩

/-- Swap the entries at positions `i` and `j` (identity when out of range). -/
def swapAt (l : List β) (i j : ℕ) : List β :=
  match l[i]?, l[j]? with
  | some a, some b => (l.set i b).set j a
  | _, _ => l

/-- `BinaryHeap::sift_up` (Rust std): while the element at `pos` is strictly
greater than its parent in the heap order, swap it with the parent; stop at
`start` or when `element ≤ parent`. -/
def siftUpF [Inhabited α] :
    ℕ → List (Sched α) → ℕ → ℕ → List (Sched α)
  | 0, l, _, _ => l
  | fuel + 1, l, start, pos =>
    if start < pos then
      let parent := (pos - 1) / 2
      if Sched.cmpLe (getSched l pos) (getSched l parent) then l
      else siftUpF fuel (swapAt l parent pos) start parent
    else l

/-- `sift_up` with its canonical fuel. -/
def siftUp [Inhabited α] (l : List (Sched α)) (start pos : ℕ) :
    List (Sched α) :=
  siftUpF pos l start pos

/-- The hole-walking loop of `BinaryHeap::sift_down_to_bottom` (Rust std):
while both children are below `endIdx`, move down to the greater child
(the right child when `left ≤ right`); finally handle a single left child.
Returns the array and the final hole position. -/
def siftDownWalkF [Inhabited α] :
    ℕ → List (Sched α) → ℕ → ℕ → List (Sched α) × ℕ
  | 0, l, pos, _ => (l, pos)
  | fuel + 1, l, pos, endIdx =>
    let child := 2 * pos + 1
    if child + 1 < endIdx then
      let c :=
        if Sched.cmpLe (getSched l child) (getSched l (child + 1)) then
          child + 1
        else child
      siftDownWalkF fuel (swapAt l pos c) c endIdx
    else if child + 1 = endIdx then (swapAt l pos child, child)
    else (l, pos)

/-- `BinaryHeap::sift_down_to_bottom` (Rust std): walk the hole to the
bottom, then sift the displaced element back up from the final position. -/
def siftDownToBottom [Inhabited α] (l : List (Sched α)) (pos endIdx : ℕ) :
    List (Sched α) :=
  let lp := siftDownWalkF endIdx l pos endIdx
  siftUp lp.1 pos lp.2

/-- `BinaryHeap::push`: append, then `sift_up(0, old_len)`.  This is what
`Game::schedule` calls. -/
def heapPush [Inhabited α] (l : List (Sched α)) (e : Sched α) :
    List (Sched α) :=
  siftUp (l ++ [e]) 0 l.length

/-- `BinaryHeap::pop`: remove the last element; if the heap is still
non-empty, swap it with the root (which is returned) and
`sift_down_to_bottom(0)`.  This is what `Game::tick_event` calls. -/
def heapPop [Inhabited α] (l : List (Sched α)) :
    Option (Sched α) × List (Sched α) :=
  match l.getLast? with
  | none => (none, [])
  | some item =>
    let rest := l.dropLast
    if rest.isEmpty then (some item, [])
    else (some (getSched rest 0), siftDownToBottom (rest.set 0 item) 0 rest.length)

/-! ## Player, map and game -/

/-- The player company, from `crates/core/src/player.rs`. -/
structure Player where
  cash : ℚ
  fleet_size : ℕ
  fleet : List Airplane
  orders_delivered : ℕ
deriving DecidableEq, Repr

/-- ASCII-lowercase a string character by character (the effect of Rust's
`eq_ignore_ascii_case` comparison; all model names are ASCII). -/
def asciiLower (s : String) : String :=
  String.mk (s.data.map Char.toLower)

/-- `Player::buy_plane` (`crates/core/src/player.rs`, lines 101-135):
case-insensitive model lookup, funds check, runway check; on success debit
the purchase price and append a fresh plane with id `fleet_size`. -/
def Player.buy_plane (pl : Player) (model_name : String) (airport : Airport)
    (home_coord : Coordinate) : Except GameError Player :=
  match AirplaneModel.allModels.find?
      (fun m => asciiLower m.modelName = asciiLower model_name) with
  | none => .error (.UnknownModel model_name none)
  | some model =>
    let specs := model.specs
    if pl.cash < specs.purchase_price then
      .error (.InsufficientFunds pl.cash specs.purchase_price)
    else if airport.runway_length < specs.min_runway_length then
      .error (.RunwayTooShort specs.min_runway_length airport.runway_length)
    else
      .ok { pl with
        cash := pl.cash - specs.purchase_price
        fleet := pl.fleet ++ [Airplane.new pl.fleet_size model home_coord]
        fleet_size := pl.fleet_size + 1 }

/-- `Player::record_delivery`: increment the delivery counter. -/
def Player.record_delivery (pl : Player) : Player :=
  { pl with orders_delivered := pl.orders_delivered + 1 }

/-- The world map.  The core `map.rs` is not in the sources; the fields are
the ones the core `game.rs` reads (`map.airports` as an ordered list of
`(Airport, Coordinate)` pairs, `map.num_airports`) plus, modelled from the
spec (section 3), the seed and the order-generation parameters it carries. -/
structure Map where
  seed : ℕ
  num_airports : ℕ
  airports : List (Airport × Coordinate)
  order_params : OrderGenerationParams
deriving DecidableEq, Repr

/-- Event kinds.  The core `events.rs` is not in the sources; the variants
and their payloads are the ones the core `game.rs` constructs and matches on
(`Restock`, `LoadingEvent { plane }`, `FlightProgress { plane }`,
`RefuelComplete { plane }`, `DailyStats`), plus, modelled from the spec
(section 4.5), `FuelPriceUpdate` and `MaintenanceComplete` which `tick_event`
leaves to its catch-all arm. -/
inductive Event where
  | Restock
  | FuelPriceUpdate
  | LoadingEvent (plane : ℕ)
  | RefuelComplete (plane : ℕ)
  | MaintenanceComplete (plane : ℕ)
  | FlightProgress (plane : ℕ)
  | DailyStats
deriving DecidableEq, Repr

instance : Inhabited Event := ⟨.Restock⟩

/-- One day's statistics record.  `statistics.rs` is not in the sources; the
fields are the ones the `DailyStats` literal in the core `game.rs` fills
(`day, income, expenses, net_cash, fleet_size, total_deliveries`). -/
structure DailyStats where
  day : ℕ
  income : ℚ
  expenses : ℚ
  net_cash : ℚ
  fleet_size : ℕ
  total_deliveries : ℕ
deriving DecidableEq, Repr

/-- The root game state, from `crates/core/src/game.rs` (the `BinaryHeap` of
events is carried as its backing array). -/
structure Game where
  time : ℕ
  map : Map
  airplanes : List Airplane
  arrival_times : List ℕ
  player : Player
  events : List (Sched Event)
  daily_income : ℚ
  daily_expenses : ℚ
  stats : List DailyStats
deriving DecidableEq, Repr

instance : Inhabited Coordinate := ⟨⟨0, 0⟩⟩

instance : Inhabited Airport := ⟨⟨0, "", 0, 0, 0, 0, []⟩⟩

instance : Inhabited Airplane := ⟨Airplane.new 0 .SparrowLight ⟨0, 0⟩⟩

/-- `Game::schedule`: push `(time, event)` on the event heap. -/
def Game.schedule (g : Game) (t : ℕ) (e : Event) : Game :=
  { g with events := heapPush g.events ⟨t, e⟩ }

/-- The `Event::DailyStats` arm of `Game::tick_event`
(`crates/core/src/game.rs`, lines 242-258), with `t` the popped event's time
(`tick_event` first sets `self.time` to it): append the day's record, then
the resets — the source zeroes `daily_expenses` twice and never zeroes
`daily_income` — then reschedule at `time + 24`. -/
def Game.tick_daily_stats (g : Game) (t : ℕ) : Game :=
  let g1 : Game := { g with time := t }
  let day := g1.time / 24
  let g2 : Game := { g1 with
    stats := g1.stats ++
      [{ day := day, income := g1.daily_income, expenses := g1.daily_expenses,
         net_cash := g1.player.cash, fleet_size := g1.player.fleet_size,
         total_deliveries := g1.player.orders_delivered }] }
  let g3 : Game := { g2 with daily_expenses := 0 }
  let g4 : Game := { g3 with daily_expenses := 0 }
  g4.schedule (g4.time + 24) .DailyStats

/-- `Game::buy_plane` (`crates/core/src/game.rs`, lines 535-559).  The
source indexes `self.map.airports[airport_id]` before any validation —
modelled as `none` (panic) when out of range — then calls
`Player::buy_plane`; on success it reads the purchase price from
`self.airplanes.last().unwrap()` **before** refreshing `self.airplanes` from
`player.fleet`, so the stale previously-last plane is priced (and an empty
`airplanes` panics the `unwrap`). -/
def Game.buy_plane (g : Game) (model : String) (airport_id : ℕ) :
    Option (Except GameError Game) :=
  match g.map.airports[airport_id]? with
  | none => none
  | some ac =>
    let home_coord := ac.2
    let airport_ref := ac.1
    match g.player.buy_plane model airport_ref home_coord with
    | .error e => some (.error e)
    | .ok player' =>
      match g.airplanes.getLast? with
      | none => none
      | some new_plane =>
        let buying_price := new_plane.specs.purchase_price
        some (.ok { g with
          daily_expenses := g.daily_expenses + buying_price
          airplanes := player'.fleet
          player := player'
          arrival_times := g.arrival_times ++ [g.time] })

/-- The per-delivery rule shared by the unload actions
(`crates/core/src/game.rs`: the loop bodies of `unload_all`,
`unload_orders` and the body of `unload_order`): at the destination with a
nonzero deadline, pay and count the delivery; at the destination with
deadline 0, discard; otherwise append to the airport's stock.  The
accumulator is `(cash, daily_income, orders_delivered, airport stock)`. -/
def deliverStep (apId : ℕ) (acc : ℚ × ℚ × ℕ × List Order) (o : Order) :
    ℚ × ℚ × ℕ × List Order :=
  if o.destination_id = apId then
    if o.deadline ≠ 0 then
      (acc.1 + o.value, acc.2.1 + o.value, acc.2.2.1 + 1, acc.2.2.2)
    else acc
  else
    (acc.1, acc.2.1, acc.2.2.1, acc.2.2.2 ++ [o])

/-- `Game::unload_order` (`crates/core/src/game.rs`, lines 681-721): find
the plane by id, find the airport whose coordinate equals the plane's
location, unload the order from the plane, apply the delivery rule, and
schedule a `LoadingEvent` at `time + 1`. -/
def Game.unload_order (g : Game) (order_id plane_id : ℕ) :
    Except GameError Game :=
  match g.airplanes.findIdx? (fun p => p.id = plane_id) with
  | none => .error (.PlaneIdInvalid plane_id)
  | some pIdx =>
    let plane := (g.airplanes[pIdx]?).getD default
    match g.map.airports.findIdx? (fun ac => ac.2 = plane.location) with
    | none => .error (.PlaneNotAtAirport plane_id)
    | some aIdx =>
      let ac := (g.map.airports[aIdx]?).getD default
      let airport := ac.1
      match plane.unload_order order_id with
      | .error e => .error e
      | .ok dp =>
        let delivery := dp.1
        let res := deliverStep airport.id
          (g.player.cash, g.daily_income, g.player.orders_delivered,
            airport.orders) delivery
        let g1 : Game := { g with
          airplanes := g.airplanes.set pIdx dp.2
          player := { g.player with
            cash := res.1, orders_delivered := res.2.2.1 }
          daily_income := res.2.1
          map := { g.map with
            airports := g.map.airports.set aIdx
              ({ airport with orders := res.2.2.2 }, ac.2) } }
        .ok (g1.schedule (g1.time + 1) (.LoadingEvent plane_id))

/-- `Game::unload_all` (`crates/core/src/game.rs`, lines 587-630): find the
plane and its airport, drain the whole manifest, apply the delivery rule to
each drained order in manifest order, and schedule a `LoadingEvent` at
`time + 1`. -/
def Game.unload_all (g : Game) (plane_id : ℕ) : Except GameError Game :=
  match g.airplanes.findIdx? (fun p => p.id = plane_id) with
  | none => .error (.PlaneIdInvalid plane_id)
  | some pIdx =>
    let plane := (g.airplanes[pIdx]?).getD default
    match g.map.airports.findIdx? (fun ac => ac.2 = plane.location) with
    | none => .error (.PlaneNotAtAirport plane_id)
    | some aIdx =>
      let ac := (g.map.airports[aIdx]?).getD default
      let airport := ac.1
      let dp := plane.unload_all
      let res := dp.1.foldl (deliverStep airport.id)
        (g.player.cash, g.daily_income, g.player.orders_delivered,
          airport.orders)
      let g1 : Game := { g with
        airplanes := g.airplanes.set pIdx dp.2
        player := { g.player with
          cash := res.1, orders_delivered := res.2.2.1 }
        daily_income := res.2.1
        map := { g.map with
          airports := g.map.airports.set aIdx
            ({ airport with orders := res.2.2.2 }, ac.2) } }
      .ok (g1.schedule (g1.time + 1) (.LoadingEvent plane_id))

/-- The parking charge `depart_plane` computes:
`parking_fee * (time - arrival_times[plane_id])` for the airport the plane
is parked at; `none` when any of the lookups fails. -/
def Game.parking_charge (g : Game) (plane_id : ℕ) : Option ℚ :=
  match g.airplanes.findIdx? (fun p => p.id = plane_id) with
  | none => none
  | some pIdx =>
    let plane := (g.airplanes[pIdx]?).getD default
    match g.map.airports.find? (fun a => a.2 = plane.location) with
    | none => none
    | some origin =>
      match g.arrival_times[plane_id]?, g.map.airports[origin.1.id]? with
      | some parked_since, some originEntry =>
        some (originEntry.1.parking_fee * ((g.time - parked_since : ℕ) : ℚ))
      | _, _ => none

/-- `Game::depart_plane` (`crates/core/src/game.rs`, lines 723-776): find
the plane by id, find the origin airport by the plane's coordinate, find the
destination airport by id; **then** charge the parking fee
(`parking_fee * (time - arrival_time)`), and only afterwards validate the
flight with `consume_flight_fuel`; on success set the plane `InTransit` and
schedule the first `FlightProgress` at `time + 1`.  `dist` is the computed
`plane.distance_to(dest_coords)` value.  Returns `none` for an index panic;
otherwise the final state together with the error, if any (the parking
charge survives a `consume_flight_fuel` error). -/
def Game.depart_plane (g : Game) (plane_id destination_id : ℕ) (dist : ℚ) :
    Option (Game × Option GameError) :=
  match g.airplanes.findIdx? (fun p => p.id = plane_id) with
  | none => some (g, some (.PlaneIdInvalid plane_id))
  | some pIdx =>
    let plane := (g.airplanes[pIdx]?).getD default
    match g.map.airports.find? (fun a => a.2 = plane.location) with
    | none => some (g, some (.PlaneNotAtAirport plane_id))
    | some origin =>
      let origin_idx := origin.1.id
      match g.map.airports.find? (fun a => a.1.id = destination_id) with
      | none => some (g, some (.AirportIdInvalid destination_id))
      | some dest =>
        match g.arrival_times[plane_id]?, g.map.airports[origin_idx]? with
        | some parked_since, some originEntry =>
          let parked_hours : ℚ := ((g.time - parked_since : ℕ) : ℚ)
          let parking_fee := originEntry.1.parking_fee * parked_hours
          let g1 : Game := { g with
            player := { g.player with cash := g.player.cash - parking_fee }
            daily_expenses := g.daily_expenses + parking_fee }
          match plane.consume_flight_fuel dest.1 dist with
          | .error e => some (g1, some e)
          | .ok fp =>
            let plane2 := { fp.2 with
              status := .InTransit fp.1 destination_id plane.location fp.1 }
            let g2 : Game := { g1 with airplanes := g1.airplanes.set pIdx plane2 }
            some (g2.schedule (g2.time + 1) (.FlightProgress plane_id), none)
        | _, _ => none

/-! ## Specification-side definitions used by the theorems -/

/-- The time stored at slot `i` of a heap array (0 when out of range). -/
def timeAt [Inhabited α] (l : List (Sched α)) (i : ℕ) : ℕ :=
  (getSched l i).time

/-- The binary-heap shape invariant of the backing array, for the reversed
time-only order of `ScheduledEvent`: every parent's time is at most its
child's time (so the root carries the earliest time). -/
def heapProp [Inhabited α] (l : List (Sched α)) : Prop :=
  ∀ i, i < l.length → 0 < i → timeAt l ((i - 1) / 2) ≤ timeAt l i

instance heapPropDecidable [Inhabited α] (l : List (Sched α)) :
    Decidable (heapProp l) :=
  inferInstanceAs (Decidable (∀ i, i < l.length → 0 < i → _ ≤ _))

/-- The invariant maintained by `sift_up`: the heap shape holds at every
index except `pos`, and the children of `pos` (if any) are already bounded
below by the parent of `pos`. -/
def UpInv [Inhabited α] (l : List (Sched α)) (pos : ℕ) : Prop :=
  (∀ i, i < l.length → 0 < i → i ≠ pos →
    timeAt l ((i - 1) / 2) ≤ timeAt l i) ∧
  (∀ c, c < l.length → (c - 1) / 2 = pos → 0 < pos →
    timeAt l ((pos - 1) / 2) ≤ timeAt l c)

/-- The invariant maintained by the hole walk of `sift_down_to_bottom`: the
heap shape holds away from `pos` (both at `pos` and below it the displaced
element may be out of order), and the children of `pos` are bounded below by
the parent of `pos`. -/
def WalkInv [Inhabited α] (l : List (Sched α)) (pos : ℕ) : Prop :=
  (∀ i, i < l.length → 0 < i → i ≠ pos → (i - 1) / 2 ≠ pos →
    timeAt l ((i - 1) / 2) ≤ timeAt l i) ∧
  (∀ c, c < l.length → (c - 1) / 2 = pos → 0 < pos →
    timeAt l ((pos - 1) / 2) ≤ timeAt l c)

/-- Every slot of `l'` holds a value taken from some slot of `l` (the sift
routines only ever permute slots). -/
def SlotsFrom [Inhabited α] (l' l : List (Sched α)) : Prop :=
  ∀ k, k < l'.length → ∃ m, m < l.length ∧ l'[k]? = l[m]?

/-- Well-formedness of a spec record (all model-table entries satisfy it). -/
def SpecsWF (s : AirplaneSpecs) : Prop :=
  0 < s.cruise_speed ∧ 0 ≤ s.fuel_consumption ∧ 0 ≤ s.fuel_capacity ∧
  0 ≤ s.payload_capacity

/-- The airplane invariant of spec section 8: fuel within tank bounds and
the payload equal to the manifest weight sum and within capacity — together
with the facts that make it inductive (manifest weights are nonnegative, as
order generation guarantees, and the specs are well formed). -/
def Airplane.Inv (p : Airplane) : Prop :=
  0 ≤ p.current_fuel ∧ p.current_fuel ≤ p.specs.fuel_capacity ∧
  p.current_payload = (p.manifest.map Order.weight).sum ∧
  p.current_payload ≤ p.specs.payload_capacity ∧
  (∀ o ∈ p.manifest, 0 ≤ o.weight) ∧ SpecsWF p.specs

/-- The airplane-level operations quantified over by the invariant claim. -/
inductive AirplaneOp where
  | load (o : Order)
  | unloadAllOp
  | unloadOne (order_id : ℕ)
  | refuelOp
  | consume (airport : Airport) (dist : ℚ)

/-- Run one airplane operation, keeping the plane unchanged when the
operation returns an error (the source validates before mutating). -/
def Airplane.applyOp (p : Airplane) : AirplaneOp → Airplane
  | .load o => match p.load_order o with | .ok p' => p' | .error _ => p
  | .unloadAllOp => p.unload_all.2
  | .unloadOne oid =>
    match p.unload_order oid with | .ok r => r.2 | .error _ => p
  | .refuelOp => p.refuel
  | .consume ap d =>
    match p.consume_flight_fuel ap d with | .ok r => r.2 | .error _ => p

/-- Side conditions on an operation's inputs (loaded orders and computed
distances are nonnegative, as in every reachable state). -/
def AirplaneOp.WF : AirplaneOp → Prop
  | .load o => 0 ≤ o.weight
  | .consume _ d => 0 ≤ d
  | _ => True

/-- The manifest orders that `unload_all` delivers at airport `apId`:
destination reached with a nonzero deadline. -/
def deliveredList (apId : ℕ) (orders : List Order) : List Order :=
  orders.filter (fun o => o.destination_id = apId ∧ o.deadline ≠ 0)

/-- Total value paid out for the delivered orders. -/
def valueSum (apId : ℕ) (orders : List Order) : ℚ :=
  ((deliveredList apId orders).map Order.value).sum

/-- Number of delivered orders. -/
def deliveredCount (apId : ℕ) (orders : List Order) : ℕ :=
  (deliveredList apId orders).length

/-! ## Concrete fixtures used by witnesses and counterexamples -/

/-- A cargo kind for concrete orders. -/
def exCargo : CargoType := ⟨(0 : Fin 18)⟩

/-- A generously sized airport with a 10 $/h parking fee. -/
def exAp0 : Airport :=
  { id := 0, name := "AAA", runway_length := 10000, fuel_price := 1,
    landing_fee := 5, parking_fee := 10, orders := [] }

/-- A second airport, 9000 km away from `exAp0` in the example map. -/
def exAp1 : Airport :=
  { id := 1, name := "AAB", runway_length := 10000, fuel_price := 1,
    landing_fee := 5, parking_fee := 7, orders := [] }

/-- A freshly bought SparrowLight parked at the origin. -/
def exPlane : Airplane := Airplane.new 0 .SparrowLight ⟨0, 0⟩

/-- Default order-generation parameters (spec defaults). -/
def exParams : OrderGenerationParams := ⟨336, 100, 20000, 1/2, 7/10⟩

/-- A small game: two airports 9000 km apart, one parked SparrowLight that
arrived at hour 0, current time 1 (so one hour of parking accrued). -/
def exGame : Game :=
  { time := 1
    map := { seed := 1, num_airports := 2,
             airports := [(exAp0, ⟨0, 0⟩), (exAp1, ⟨9000, 0⟩)],
             order_params := exParams }
    airplanes := [exPlane]
    arrival_times := [0]
    player := { cash := 2000000, fleet_size := 1, fleet := [exPlane],
                orders_delivered := 0 }
    events := []
    daily_income := 0
    daily_expenses := 0
    stats := [] }

/-- The example plane with status `Loading` (busy, not `Parked`). -/
def exPlaneLoading : Airplane := { exPlane with status := .Loading }

/-- The example game with the plane mid-loading. -/
def exGameLoading : Game :=
  { exGame with
    airplanes := [exPlaneLoading]
    player := { exGame.player with fleet := [exPlaneLoading] } }

/-- An order for the current airport, in time (deadline 5). -/
def exOrder1 : Order :=
  { id := 30, name := exCargo, weight := 100, value := 500, deadline := 5,
    origin_id := 1, destination_id := 0 }

/-- An order for the current airport whose deadline has expired. -/
def exOrder2 : Order :=
  { id := 31, name := exCargo, weight := 50, value := 700, deadline := 0,
    origin_id := 1, destination_id := 0 }

/-- An order for the other airport. -/
def exOrder3 : Order :=
  { id := 32, name := exCargo, weight := 60, value := 900, deadline := 3,
    origin_id := 0, destination_id := 1 }

/-- The example plane loaded with the three orders above. -/
def exPlaneLoaded : Airplane :=
  { exPlane with
    manifest := [exOrder1, exOrder2, exOrder3], current_payload := 210 }

/-- The example game with the loaded plane parked at airport 0. -/
def exGameU : Game :=
  { exGame with
    airplanes := [exPlaneLoaded]
    player := { exGame.player with fleet := [exPlaneLoaded] } }

/-- An airport holding a single order with deadline 1. -/
def exApD : Airport := { exAp0 with orders :=
  [{ id := 7, name := exCargo, weight := 100, value := 50, deadline := 1,
     origin_id := 0, destination_id := 1 }] }

/-- The insertion trace refuting FIFO tie-breaking: two events at time 5 are
scheduled (insertion tags 0 then 1), then one at time 1. -/
def fifoTrace : List (Sched ℕ) :=
  heapPush (heapPush (heapPush ([] : List (Sched ℕ)) ⟨5, 0⟩) ⟨5, 1⟩) ⟨1, 2⟩

/-- A small well-formed heap used by the heap-theorem witness. -/
def exHeap : List (Sched ℕ) := [⟨1, 0⟩, ⟨5, 1⟩, ⟨5, 2⟩]

/-! ## Theorems -/

/-- Claim C9 (counterexample): with a single airport (`num_airports = 1`,
permitted by the claim's `num_airports ≥ 1`), the origin `0` is a valid
origin (`0 < 1`), the only possible draw is `0`, and the generated
destination equals the origin — so `destination_id ≠ origin_id` fails. -/
theorem pick_destination_single_airport :
    Order.pick_destination 0 0 1 = 0 ∧ (0 : ℕ) < 1 := by decide

/-- Claim C9 (amended): for every map with at least **two** airports, every
origin and every drawn value in range, the destination produced by
`Order::new`'s draw-and-shift step differs from the origin. -/
theorem pick_destination_ne_origin (draw origin n : ℕ) (hn : 2 ≤ n)
    (ho : origin < n) (hd : draw < n) :
    Order.pick_destination draw origin n ≠ origin := by
  unfold Order.pick_destination
  split
  · next heq =>
    subst heq
    intro hc
    rcases Nat.lt_or_ge (draw + 1) n with h | h
    · rw [Nat.mod_eq_of_lt h] at hc
      omega
    · have hdn : draw + 1 = n := by omega
      rw [hdn, Nat.mod_self] at hc
      omega
  · next hne => exact hne

/-- Witness for the amended claim C9 at `n = 2`, origin `0`, draw `0`. -/
theorem pick_destination_ne_origin_witness :
    Order.pick_destination 0 0 2 ≠ 0 :=
  pick_destination_ne_origin 0 0 2 (by decide) (by decide) (by decide)

/-- Claim C6 (counterexample): an airport holding one order with deadline 1
still holds that order — now with deadline 0 — immediately after
`update_deadline()`, contradicting "no order in the pending list has
deadline 0 after the call". -/
theorem update_deadline_keeps_zero :
    (exApD.update_deadline).orders.map Order.deadline = [0] ∧
    exApD.orders.map Order.deadline = [1] := by decide

/-- Claim C6 (amended): `update_deadline()` first removes the orders whose
deadline is already 0 and then decrements each surviving order's deadline by
exactly 1; consequently each surviving order entered the call with a nonzero
deadline, and an order entering with deadline 1 stays in the list at
deadline 0 (it is removed only by the next call). -/
theorem update_deadline_spec (a : Airport) :
    ((a.update_deadline).orders.map (fun o => o.deadline + 1))
      = ((a.orders.filter (fun o => o.deadline ≠ 0)).map Order.deadline)
    ∧ ∀ o ∈ (a.update_deadline).orders,
        ∃ o' ∈ a.orders, o'.deadline ≠ 0 ∧
          o = { o' with deadline := o'.deadline - 1 } := by
  constructor
  · unfold Airport.update_deadline
    simp only [List.map_map]
    refine List.map_congr_left ?_
    intro o ho
    have h0 : o.deadline ≠ 0 := by simpa using List.of_mem_filter ho
    simp only [Function.comp_apply]
    omega
  · intro o ho
    unfold Airport.update_deadline at ho
    simp only [List.mem_map] at ho
    obtain ⟨o', ho', rfl⟩ := ho
    exact ⟨o', List.mem_of_mem_filter ho',
      by simpa using List.of_mem_filter ho', rfl⟩

/-- Claim C2: processing a `DailyStats` event at time `t` appends the
day-`t/24` record with the day's income, expenses and closing cash, resets
`daily_expenses` (twice), **leaves `daily_income` unchanged** — the source
never zeroes it, diverging from the claim's "sets both to 0" — and schedules
the next `DailyStats` at `t + 24`; nothing else changes. -/
theorem daily_stats_tick_spec (g : Game) (t : ℕ) :
    (g.tick_daily_stats t).time = t ∧
    (g.tick_daily_stats t).stats = g.stats ++
      [{ day := t / 24, income := g.daily_income,
         expenses := g.daily_expenses, net_cash := g.player.cash,
         fleet_size := g.player.fleet_size,
         total_deliveries := g.player.orders_delivered }] ∧
    (g.tick_daily_stats t).daily_expenses = 0 ∧
    (g.tick_daily_stats t).daily_income = g.daily_income ∧
    (g.tick_daily_stats t).events = heapPush g.events ⟨t + 24, .DailyStats⟩ ∧
    (g.tick_daily_stats t).player = g.player ∧
    (g.tick_daily_stats t).airplanes = g.airplanes ∧
    (g.tick_daily_stats t).map = g.map ∧
    (g.tick_daily_stats t).arrival_times = g.arrival_times :=
  ⟨rfl, rfl, rfl, rfl, rfl, rfl, rfl, rfl, rfl⟩

/-- Claim C10: `Game::buy_plane` indexes `map.airports[airport_id]` before
any validation, so for every id at or beyond `num_airports` (with
`num_airports` the airport count, as in every generated map) the call panics
(modelled as `none`) rather than returning `AirportIdInvalid`. -/
theorem buy_plane_panics_oob (g : Game) (model : String) (airport_id : ℕ)
    (hwf : g.map.num_airports = g.map.airports.length)
    (h : g.map.num_airports ≤ airport_id) :
    g.buy_plane model airport_id = none := by
  unfold Game.buy_plane
  have hnone : g.map.airports[airport_id]? = none := by
    rw [List.getElem?_eq_none]
    omega
  rw [hnone]

/-- Witness for claim C10: buying at airport id 5 of the two-airport example
game panics. -/
theorem buy_plane_panics_oob_witness :
    exGame.buy_plane "SparrowLight" 5 = none :=
  buy_plane_panics_oob exGame "SparrowLight" 5 (by decide) (by decide)

/-- Claim C7: buying a `FalconJet` (price 1 500 000) in the example game —
whose fleet's last plane is a `SparrowLight` (price 200 000) — debits cash by
the FalconJet price and appends a fueled-up Parked FalconJet at the
airport's coordinate, but increases `daily_expenses` by the **SparrowLight**
price: the source reads `self.airplanes.last()` before refreshing
`self.airplanes` from the fleet, so the stale previously-last plane is
priced, diverging from the claim's "daily_expenses increases by that same
purchase_price". -/
theorem buy_plane_expense_divergence :
    (exGame.buy_plane "FalconJet" 0).map
        (fun r => match r with
          | .ok g' => some (g'.player.cash, g'.daily_expenses,
              g'.player.fleet.map
                (fun p => (p.model, p.status, p.current_fuel, p.location)),
              g'.arrival_times)
          | .error _ => none)
      = some (some (500000, 200000,
          [(.SparrowLight, .Parked, 200, ⟨0, 0⟩),
           (.FalconJet, .Parked, 2000, ⟨0, 0⟩)], [0, 1]))
    ∧ AirplaneModel.FalconJet.specs.purchase_price = 1500000
    ∧ exGame.player.cash = 2000000
    ∧ exGame.daily_expenses = 0
    ∧ (200000 : ℚ) ≠ 1500000 := by
  have hfind : AirplaneModel.allModels.find?
      (fun m => asciiLower m.modelName = asciiLower "FalconJet")
        = some .FalconJet := by decide
  refine ⟨?_, by norm_num [AirplaneModel.specs], by norm_num [exGame],
    by norm_num [exGame], by norm_num⟩
  simp only [Game.buy_plane, Player.buy_plane, exGame, exPlane, exAp0, exAp1,
    hfind]
  norm_num [AirplaneModel.specs, Airplane.new]

/-- The fold of the per-delivery rule over a drained manifest pays the total
value of the in-time orders addressed to the airport into both accumulators,
counts them, and appends exactly the mis-addressed orders to the stock. -/
theorem deliverStep_foldl (apId : ℕ) (orders : List Order) (cash income : ℚ)
    (delivered : ℕ) (stock : List Order) :
    orders.foldl (deliverStep apId) (cash, income, delivered, stock)
      = (cash + valueSum apId orders, income + valueSum apId orders,
         delivered + deliveredCount apId orders,
         stock ++ orders.filter (fun o => o.destination_id ≠ apId)) := by
  induction orders generalizing cash income delivered stock with
  | nil => simp [valueSum, deliveredCount, deliveredList]
  | cons o rest ih =>
    rw [List.foldl_cons]
    by_cases h1 : o.destination_id = apId
    · by_cases h2 : o.deadline = 0
      · have hstep : deliverStep apId (cash, income, delivered, stock) o
            = (cash, income, delivered, stock) := by
          simp [deliverStep, h1, h2]
        rw [hstep, ih]
        simp [valueSum, deliveredCount, deliveredList, List.filter_cons, h1, h2]
      · have hstep : deliverStep apId (cash, income, delivered, stock) o
            = (cash + o.value, income + o.value, delivered + 1, stock) := by
          simp [deliverStep, h1, h2]
        rw [hstep, ih]
        have hv : valueSum apId (o :: rest) = o.value + valueSum apId rest := by
          simp [valueSum, deliveredList, List.filter_cons, h1, h2]
        have hc : deliveredCount apId (o :: rest)
            = deliveredCount apId rest + 1 := by
          simp [deliveredCount, deliveredList, List.filter_cons, h1, h2]
        have hf : (o :: rest).filter (fun o => o.destination_id ≠ apId)
            = rest.filter (fun o => o.destination_id ≠ apId) := by
          simp [List.filter_cons, h1]
        rw [hv, hc, hf]
        simp only [Prod.mk.injEq]
        exact ⟨by ring, by ring, by omega, trivial⟩
    · have hstep : deliverStep apId (cash, income, delivered, stock) o
          = (cash, income, delivered, stock ++ [o]) := by
        simp [deliverStep, h1]
      rw [hstep, ih]
      simp only [valueSum, deliveredCount, deliveredList, List.filter_cons, h1]
      simp [h1, List.append_assoc]

/-- Claim C4: for a plane parked at an airport (the coordinate lookup
succeeds) and an order unloaded from it, the engine follows the delivery
rule — destination reached and deadline nonzero: cash and `daily_income`
grow by the order's value and `orders_delivered` by one, with the airport's
stock unchanged; destination reached but deadline 0: the order is discarded
with nothing else changed; wrong destination: the order is appended to the
airport's pending list.  The same rule, folded over the whole manifest,
characterises `unload_all`; both actions schedule the `LoadingEvent` at
`time + 1`. -/
theorem unload_delivery_rules
    (g : Game) (order_id plane_id pIdx aIdx : ℕ)
    (plane : Airplane) (apc : Airport × Coordinate)
    (hp : g.airplanes.findIdx? (fun p => p.id = plane_id) = some pIdx)
    (hpl : g.airplanes[pIdx]? = some plane)
    (ha : g.map.airports.findIdx? (fun ac => ac.2 = plane.location) = some aIdx)
    (hap : g.map.airports[aIdx]? = some apc)
    (delivery : Order) (plane2 : Airplane)
    (hu : plane.unload_order order_id = .ok (delivery, plane2)) :
    (∃ g', g.unload_order order_id plane_id = .ok g' ∧
      g'.events = heapPush g.events ⟨g.time + 1, .LoadingEvent plane_id⟩ ∧
      (delivery.destination_id = apc.1.id → delivery.deadline ≠ 0 →
        g'.player.cash = g.player.cash + delivery.value ∧
        g'.daily_income = g.daily_income + delivery.value ∧
        g'.player.orders_delivered = g.player.orders_delivered + 1 ∧
        (g'.map.airports[aIdx]?).map (fun x => x.1.orders) = some apc.1.orders) ∧
      (delivery.destination_id = apc.1.id → delivery.deadline = 0 →
        g'.player.cash = g.player.cash ∧
        g'.daily_income = g.daily_income ∧
        g'.player.orders_delivered = g.player.orders_delivered ∧
        (g'.map.airports[aIdx]?).map (fun x => x.1.orders) = some apc.1.orders) ∧
      (delivery.destination_id ≠ apc.1.id →
        g'.player.cash = g.player.cash ∧
        g'.daily_income = g.daily_income ∧
        g'.player.orders_delivered = g.player.orders_delivered ∧
        (g'.map.airports[aIdx]?).map (fun x => x.1.orders)
          = some (apc.1.orders ++ [delivery]))) ∧
    (∃ g2, g.unload_all plane_id = .ok g2 ∧
      g2.events = heapPush g.events ⟨g.time + 1, .LoadingEvent plane_id⟩ ∧
      g2.player.cash = g.player.cash + valueSum apc.1.id plane.manifest ∧
      g2.daily_income = g.daily_income + valueSum apc.1.id plane.manifest ∧
      g2.player.orders_delivered
        = g.player.orders_delivered + deliveredCount apc.1.id plane.manifest ∧
      (g2.map.airports[aIdx]?).map (fun x => x.1.orders)
        = some (apc.1.orders ++
            plane.manifest.filter (fun o => o.destination_id ≠ apc.1.id))) := by
  have haLt : aIdx < g.map.airports.length := by
    by_contra hcon
    rw [List.getElem?_eq_none (by omega)] at hap
    exact Option.noConfusion hap
  constructor
  · unfold Game.unload_order
    rw [hp]
    simp only [hpl, Option.getD_some]
    rw [ha]
    simp only [hap, Option.getD_some]
    rw [hu]
    refine ⟨_, rfl, rfl, ?_, ?_, ?_⟩
    · intro h1 h2
      refine ⟨?_, ?_, ?_, ?_⟩ <;>
        simp [Game.schedule, deliverStep, h1, h2,
          List.getElem?_set_eq_of_lt _ haLt]
    · intro h1 h2
      refine ⟨?_, ?_, ?_, ?_⟩ <;>
        simp [Game.schedule, deliverStep, h1, h2,
          List.getElem?_set_eq_of_lt _ haLt]
    · intro h1
      refine ⟨?_, ?_, ?_, ?_⟩ <;>
        simp [Game.schedule, deliverStep, h1,
          List.getElem?_set_eq_of_lt _ haLt]
  · unfold Game.unload_all
    rw [hp]
    simp only [hpl, Option.getD_some]
    rw [ha]
    simp only [hap, Option.getD_some]
    unfold Airplane.unload_all
    rw [deliverStep_foldl]
    refine ⟨_, rfl, rfl, ?_, ?_, ?_, ?_⟩ <;>
      simp [Game.schedule, List.getElem?_set_eq_of_lt _ haLt]

/-- Witness for claim C4: the loaded example plane at airport 0 unloads
order 30 (in-time, addressed to airport 0) and, in the `unload_all` part,
its whole three-order manifest. -/
theorem unload_delivery_rules_witness :
    (∃ g', exGameU.unload_order 30 0 = .ok g' ∧
      g'.events = heapPush exGameU.events ⟨exGameU.time + 1, .LoadingEvent 0⟩ ∧
      (exOrder1.destination_id = exAp0.id → exOrder1.deadline ≠ 0 →
        g'.player.cash = exGameU.player.cash + exOrder1.value ∧
        g'.daily_income = exGameU.daily_income + exOrder1.value ∧
        g'.player.orders_delivered = exGameU.player.orders_delivered + 1 ∧
        (g'.map.airports[0]?).map (fun x => x.1.orders) = some exAp0.orders) ∧
      (exOrder1.destination_id = exAp0.id → exOrder1.deadline = 0 →
        g'.player.cash = exGameU.player.cash ∧
        g'.daily_income = exGameU.daily_income ∧
        g'.player.orders_delivered = exGameU.player.orders_delivered ∧
        (g'.map.airports[0]?).map (fun x => x.1.orders) = some exAp0.orders) ∧
      (exOrder1.destination_id ≠ exAp0.id →
        g'.player.cash = exGameU.player.cash ∧
        g'.daily_income = exGameU.daily_income ∧
        g'.player.orders_delivered = exGameU.player.orders_delivered ∧
        (g'.map.airports[0]?).map (fun x => x.1.orders)
          = some (exAp0.orders ++ [exOrder1]))) ∧
    (∃ g2, exGameU.unload_all 0 = .ok g2 ∧
      g2.events = heapPush exGameU.events ⟨exGameU.time + 1, .LoadingEvent 0⟩ ∧
      g2.player.cash
        = exGameU.player.cash + valueSum exAp0.id exPlaneLoaded.manifest ∧
      g2.daily_income
        = exGameU.daily_income + valueSum exAp0.id exPlaneLoaded.manifest ∧
      g2.player.orders_delivered
        = exGameU.player.orders_delivered
          + deliveredCount exAp0.id exPlaneLoaded.manifest ∧
      (g2.map.airports[0]?).map (fun x => x.1.orders)
        = some (exAp0.orders ++
            exPlaneLoaded.manifest.filter
              (fun o => o.destination_id ≠ exAp0.id))) :=
  unload_delivery_rules exGameU 30 0 0 0 exPlaneLoaded (exAp0, ⟨0, 0⟩)
    rfl rfl rfl rfl exOrder1
    { exPlaneLoaded with
      manifest := [exOrder2, exOrder3]
      current_payload := exPlaneLoaded.current_payload - exOrder1.weight
      status := .Unloading }
    rfl

/-- Removing the first order with a given id yields a member of the list,
drops exactly its weight from the weight sum, and keeps a sublist. -/
theorem removeFirstById_spec (l : List Order) (oid : ℕ) (o : Order)
    (rest : List Order) (h : removeFirstById l oid = some (o, rest)) :
    o ∈ l ∧ (rest.map Order.weight).sum = (l.map Order.weight).sum - o.weight
      ∧ ∀ x ∈ rest, x ∈ l := by
  induction l generalizing rest with
  | nil => simp [removeFirstById] at h
  | cons a t ih =>
    by_cases ha : a.id = oid
    · rw [removeFirstById, if_pos ha] at h
      obtain ⟨rfl, rfl⟩ : a = o ∧ t = rest := by
        simpa using h
      exact ⟨List.mem_cons_self _ _, by simp, fun x hx => List.mem_cons_of_mem _ hx⟩
    · rw [removeFirstById, if_neg ha] at h
      cases hr : removeFirstById t oid with
      | none => rw [hr] at h; simp at h
      | some pr =>
        obtain ⟨o', rest'⟩ := pr
        rw [hr] at h
        obtain ⟨rfl, rfl⟩ : o' = o ∧ a :: rest' = rest := by
          simpa using h
        obtain ⟨hm, hsum, hsub⟩ := ih rest' hr
        refine ⟨List.mem_cons_of_mem _ hm, ?_, ?_⟩
        · simp only [List.map_cons, List.sum_cons, hsum]
          ring
        · intro x hx
          rcases List.mem_cons.mp hx with rfl | hx
          · exact List.mem_cons_self _ _
          · exact List.mem_cons_of_mem _ (hsub x hx)

/-- Claim C8: the airplane invariant — fuel within `[0, fuel_capacity]`,
payload equal to the manifest weight sum and at most `payload_capacity`
(together with nonnegative manifest weights and well-formed specs, which
make it inductive) — is preserved by every airplane operation: `load_order`,
`unload_order`, `unload_all`, `refuel`, and the fuel consumption of
departure, given the operation's inputs are well formed (nonnegative weight
and distance). -/
theorem airplane_invariant_preserved (p : Airplane) (op : AirplaneOp)
    (h : p.Inv) (hop : op.WF) : (p.applyOp op).Inv := by
  obtain ⟨hf0, hfc, hpay, hcap, hw, hspeed, hcons, hfcap, hpcap⟩ := h
  cases op with
  | load o =>
    simp only [Airplane.applyOp]
    unfold Airplane.load_order
    by_cases hc : p.current_payload + o.weight ≤ p.specs.payload_capacity
    · simp only [if_pos hc]
      refine ⟨hf0, hfc, ?_, ?_, ?_, hspeed, hcons, hfcap, hpcap⟩
      · simp [hpay]
      · simpa using hc
      · intro x hx
        rcases List.mem_append.mp hx with hx | hx
        · exact hw x hx
        · rw [List.mem_singleton.mp hx]
          exact hop
    · simp only [if_neg hc]
      exact ⟨hf0, hfc, hpay, hcap, hw, hspeed, hcons, hfcap, hpcap⟩
  | unloadAllOp =>
    refine ⟨hf0, hfc, by simp [Airplane.applyOp, Airplane.unload_all], ?_,
      by simp [Airplane.applyOp, Airplane.unload_all], hspeed, hcons, hfcap,
      hpcap⟩
    simpa [Airplane.applyOp, Airplane.unload_all] using hpcap
  | unloadOne oid =>
    cases hr : removeFirstById p.manifest oid with
    | none =>
      simp only [Airplane.applyOp, Airplane.unload_order, hr]
      exact ⟨hf0, hfc, hpay, hcap, hw, hspeed, hcons, hfcap, hpcap⟩
    | some pr =>
      obtain ⟨o, rest⟩ := pr
      obtain ⟨hm, hsum, hsub⟩ := removeFirstById_spec _ _ _ _ hr
      simp only [Airplane.applyOp, Airplane.unload_order, hr]
      refine ⟨hf0, hfc, ?_, ?_, fun x hx => hw x (hsub x hx), hspeed, hcons,
        hfcap, hpcap⟩
      · simp [hsum, hpay]
      · have how : 0 ≤ o.weight := hw o hm
        have : p.current_payload - o.weight ≤ p.current_payload := by linarith
        exact le_trans this hcap
  | refuelOp =>
    exact ⟨hfcap, le_refl _, hpay, hcap, hw, hspeed, hcons, hfcap, hpcap⟩
  | consume airport d =>
    cases hc : p.can_fly_to airport d with
    | some e =>
      simp only [Airplane.applyOp, Airplane.consume_flight_fuel, hc]
      exact ⟨hf0, hfc, hpay, hcap, hw, hspeed, hcons, hfcap, hpcap⟩
    | none =>
      simp only [Airplane.applyOp, Airplane.consume_flight_fuel, hc]
      have hneed : (0 : ℚ) ≤
          ((((Int.ceil (d / p.specs.cruise_speed)).toNat : ℕ)) : ℚ)
            * p.specs.fuel_consumption :=
        mul_nonneg (by positivity) hcons
      by_cases hle :
          ((((Int.ceil (d / p.specs.cruise_speed)).toNat : ℕ)) : ℚ)
              * p.specs.fuel_consumption ≤ p.current_fuel
      · simp only [if_pos hle]
        refine ⟨by linarith, by linarith, hpay, hcap, hw, hspeed, hcons,
          hfcap, hpcap⟩
      · simp only [if_neg hle]
        exact ⟨hf0, hfc, hpay, hcap, hw, hspeed, hcons, hfcap, hpcap⟩

/-- Witness for claim C8: loading the 60 kg order on the loaded example
plane preserves the invariant. -/
theorem airplane_invariant_preserved_witness :
    (exPlaneLoaded.applyOp (.load exOrder3)).Inv :=
  airplane_invariant_preserved exPlaneLoaded (.load exOrder3)
    (by
      refine ⟨?_, ?_, ?_, ?_, ?_, ?_⟩ <;>
        norm_num [exPlaneLoaded, exPlane, Airplane.new, AirplaneModel.specs,
          SpecsWF, exOrder1, exOrder2, exOrder3])
    (by norm_num [AirplaneOp.WF, exOrder3])

/-- `can_fly_to` only ever produces `OutOfRange` or `RunwayTooShort`. -/
theorem can_fly_to_some (p : Airplane) (ap : Airport) (d : ℚ) (e : GameError)
    (h : p.can_fly_to ap d = some e) :
    (∃ a b, e = .OutOfRange a b) ∨ (∃ a b, e = .RunwayTooShort a b) := by
  unfold Airplane.can_fly_to at h
  by_cases h1 : p.max_range < d
  · rw [if_pos h1] at h
    exact .inl ⟨_, _, (Option.some_inj.mp h).symm⟩
  · rw [if_neg h1] at h
    by_cases h2 : ap.runway_length < p.specs.min_runway_length
    · rw [if_pos h2] at h
      exact .inr ⟨_, _, (Option.some_inj.mp h).symm⟩
    · rw [if_neg h2] at h
      exact Option.noConfusion h

/-- `consume_flight_fuel` only ever produces `OutOfRange`, `RunwayTooShort`
or `InsufficientFuel`. -/
theorem consume_flight_fuel_error_shape (p : Airplane) (ap : Airport)
    (d : ℚ) (e : GameError) (h : p.consume_flight_fuel ap d = .error e) :
    (∃ a b, e = .OutOfRange a b) ∨ (∃ a b, e = .RunwayTooShort a b) ∨
    (∃ a b, e = .InsufficientFuel a b) := by
  unfold Airplane.consume_flight_fuel at h
  cases hc : p.can_fly_to ap d with
  | some e2 =>
    rw [hc] at h
    obtain rfl : e2 = e := by simpa using h
    rcases can_fly_to_some p ap d _ hc with h | h
    · exact .inl h
    · exact .inr (.inl h)
  | none =>
    rw [hc] at h
    dsimp only at h
    split at h
    · exact Except.noConfusion h
    · obtain rfl :
          GameError.InsufficientFuel p.current_fuel
            ((((Int.ceil (d / p.specs.cruise_speed)).toNat : ℕ) : ℚ)
              * p.specs.fuel_consumption) = e := by
        simpa using h
      exact .inr (.inr ⟨_, _, rfl⟩)

/-- Claim C5 (counterexample): departing the example plane to the airport it
is currently parked at (`dest_id = 0`, distance 0) returns `Ok` — a
zero-hour flight — not `SameAirport`; and a plane whose status is `Loading`
(not `Parked`) departs with `Ok` as well, not `PlaneNotReady`: `depart_plane`
checks neither condition. -/
theorem depart_same_airport_ok :
    (exGame.depart_plane 0 0 0).map (fun r => r.2) = some none ∧
    (exGameLoading.depart_plane 0 0 0).map (fun r => r.2) = some none ∧
    exGameLoading.airplanes.map Airplane.status = [.Loading] ∧
    exGame.map.airports[0]? = some (exAp0, ⟨0, 0⟩) ∧
    exGame.airplanes.map Airplane.location = [⟨0, 0⟩] := by
  refine ⟨?_, ?_, by rfl, by rfl, by rfl⟩ <;>
    norm_num [exGame, exGameLoading, Game.depart_plane, Game.schedule,
      exPlane, exPlaneLoading, exAp0, exAp1, Airplane.new,
      AirplaneModel.specs, Airplane.consume_flight_fuel, Airplane.can_fly_to,
      Airplane.max_range, Airplane.endurance_hours]

/-- Claim C5 (amended): `depart_plane` never returns `SameAirport` and never
returns `PlaneNotReady`.  Its error set is `PlaneIdInvalid`,
`PlaneNotAtAirport` (which is what an in-transit plane triggers, through its
interpolated location matching no airport), `AirportIdInvalid`, and the
`consume_flight_fuel` errors `OutOfRange`, `RunwayTooShort`,
`InsufficientFuel`; the plane's status is never consulted and the
destination may equal the current airport. -/
theorem depart_never_same_airport_or_not_ready
    (g : Game) (plane_id destination_id : ℕ) (dist : ℚ)
    (gOut : Game) (e : GameError)
    (h : g.depart_plane plane_id destination_id dist = some (gOut, some e)) :
    e ≠ .SameAirport ∧ (∀ s, e ≠ .PlaneNotReady s) := by
  unfold Game.depart_plane at h
  cases hp : g.airplanes.findIdx? (fun p => p.id = plane_id) with
  | none =>
    rw [hp] at h
    obtain ⟨rfl, rfl⟩ : g = gOut ∧ GameError.PlaneIdInvalid plane_id = e := by
      simpa using h
    exact ⟨by simp, fun s => by simp⟩
  | some pIdx =>
    rw [hp] at h
    dsimp only at h
    cases ho : g.map.airports.find?
        (fun a => a.2 = ((g.airplanes[pIdx]?).getD default).location) with
    | none =>
      rw [ho] at h
      obtain ⟨rfl, rfl⟩ : g = gOut ∧
          GameError.PlaneNotAtAirport plane_id = e := by
        simpa using h
      exact ⟨by simp, fun s => by simp⟩
    | some origin =>
      rw [ho] at h
      dsimp only at h
      cases hd : g.map.airports.find? (fun a => a.1.id = destination_id) with
      | none =>
        rw [hd] at h
        obtain ⟨rfl, rfl⟩ : g = gOut ∧
            GameError.AirportIdInvalid destination_id = e := by
          simpa using h
        exact ⟨by simp, fun s => by simp⟩
      | some dest =>
        rw [hd] at h
        dsimp only at h
        cases hat : g.arrival_times[plane_id]? with
        | none =>
          rw [hat] at h
          simp at h
        | some parked_since =>
          rw [hat] at h
          cases hoe : g.map.airports[origin.1.id]? with
          | none =>
            rw [hoe] at h
            simp at h
          | some originEntry =>
            rw [hoe] at h
            dsimp only at h
            cases hc : (((g.airplanes[pIdx]?).getD default)).consume_flight_fuel
                dest.1 dist with
            | error e2 =>
              rw [hc] at h
              obtain ⟨-, rfl⟩ : _ ∧ e2 = e := by simpa using h
              rcases consume_flight_fuel_error_shape _ _ _ _ hc with
                ⟨a, b, rfl⟩ | ⟨a, b, rfl⟩ | ⟨a, b, rfl⟩ <;>
                exact ⟨by simp, fun s => by simp⟩
            | ok fp =>
              rw [hc] at h
              simp at h

/-- Witness for the amended claim C5: the error returned for the
out-of-range departure in the example game is `OutOfRange`, hence neither
`SameAirport` nor `PlaneNotReady`. -/
theorem depart_never_same_airport_or_not_ready_witness :
    (GameError.OutOfRange 9000 (5000/3)) ≠ .SameAirport ∧
    (∀ s, (GameError.OutOfRange 9000 (5000/3)) ≠ .PlaneNotReady s) :=
  depart_never_same_airport_or_not_ready exGame 0 1 9000
    { exGame with
      player := { exGame.player with cash := 1999990 }
      daily_expenses := 10 }
    (.OutOfRange 9000 (5000/3))
    (by
      norm_num [exGame, Game.depart_plane, exPlane, exAp0, exAp1,
        Airplane.new, AirplaneModel.specs, Airplane.consume_flight_fuel,
        Airplane.can_fly_to, Airplane.max_range, Airplane.endurance_hours])

/-- Claim C1 (counterexample): in the example game the plane has been parked
for one hour at a 10 $/h airport; `depart_plane` to the out-of-range airport
1 returns the `OutOfRange` error, yet cash has dropped from 2 000 000 to
1 999 990 and `daily_expenses` has risen from 0 to 10 — the parking fee is
charged before the flight is validated, so the failed action is not
state-preserving. -/
theorem depart_plane_error_changes_cash :
    (exGame.depart_plane 0 1 9000).map
        (fun r => (r.2, r.1.player.cash, r.1.daily_expenses))
      = some (some (.OutOfRange 9000 (5000/3)), 1999990, 10) ∧
    exGame.player.cash = 2000000 ∧ exGame.daily_expenses = 0 := by
  refine ⟨?_, by rfl, by rfl⟩
  norm_num [exGame, Game.depart_plane, exPlane, exAp0, exAp1, Airplane.new,
    AirplaneModel.specs, Airplane.consume_flight_fuel, Airplane.can_fly_to,
    Airplane.max_range, Airplane.endurance_hours]

/-- Claim C1 (amended): when `depart_plane` returns an error, the plane
(fuel, status, location), the event queue, the arrival times, the map, the
stats, `daily_income` and the fleet are unchanged; for the errors raised
before the parking charge (`PlaneIdInvalid`, `PlaneNotAtAirport`,
`AirportIdInvalid`) the whole state is unchanged, but when
`consume_flight_fuel` rejects the flight (`OutOfRange`, `RunwayTooShort`,
`InsufficientFuel`) the already-debited parking fee remains: cash has
dropped by it and `daily_expenses` has risen by it. -/
theorem depart_plane_error_state
    (g : Game) (plane_id destination_id : ℕ) (dist : ℚ)
    (gOut : Game) (e : GameError)
    (h : g.depart_plane plane_id destination_id dist = some (gOut, some e)) :
    gOut.airplanes = g.airplanes ∧ gOut.map = g.map ∧
    gOut.events = g.events ∧ gOut.arrival_times = g.arrival_times ∧
    gOut.time = g.time ∧ gOut.stats = g.stats ∧
    gOut.daily_income = g.daily_income ∧
    gOut.player.fleet = g.player.fleet ∧
    gOut.player.orders_delivered = g.player.orders_delivered ∧
    (gOut = g ∨ ∃ fee, g.parking_charge plane_id = some fee ∧
      gOut.player.cash = g.player.cash - fee ∧
      gOut.daily_expenses = g.daily_expenses + fee) := by
  unfold Game.depart_plane at h
  cases hp : g.airplanes.findIdx? (fun p => p.id = plane_id) with
  | none =>
    rw [hp] at h
    obtain ⟨rfl, rfl⟩ : g = gOut ∧ GameError.PlaneIdInvalid plane_id = e := by
      simpa using h
    exact ⟨rfl, rfl, rfl, rfl, rfl, rfl, rfl, rfl, rfl, .inl rfl⟩
  | some pIdx =>
    rw [hp] at h
    dsimp only at h
    cases ho : g.map.airports.find?
        (fun a => a.2 = ((g.airplanes[pIdx]?).getD default).location) with
    | none =>
      rw [ho] at h
      obtain ⟨rfl, rfl⟩ : g = gOut ∧
          GameError.PlaneNotAtAirport plane_id = e := by
        simpa using h
      exact ⟨rfl, rfl, rfl, rfl, rfl, rfl, rfl, rfl, rfl, .inl rfl⟩
    | some origin =>
      rw [ho] at h
      dsimp only at h
      cases hd : g.map.airports.find? (fun a => a.1.id = destination_id) with
      | none =>
        rw [hd] at h
        obtain ⟨rfl, rfl⟩ : g = gOut ∧
            GameError.AirportIdInvalid destination_id = e := by
          simpa using h
        exact ⟨rfl, rfl, rfl, rfl, rfl, rfl, rfl, rfl, rfl, .inl rfl⟩
      | some dest =>
        rw [hd] at h
        dsimp only at h
        cases hat : g.arrival_times[plane_id]? with
        | none =>
          rw [hat] at h
          simp at h
        | some parked_since =>
          rw [hat] at h
          cases hoe : g.map.airports[origin.1.id]? with
          | none =>
            rw [hoe] at h
            simp at h
          | some originEntry =>
            rw [hoe] at h
            dsimp only at h
            cases hc : (((g.airplanes[pIdx]?).getD default)).consume_flight_fuel
                dest.1 dist with
            | error e2 =>
              rw [hc] at h
              obtain ⟨rfl, rfl⟩ :
                  ({ g with
                     player := { g.player with
                       cash := g.player.cash
                         - originEntry.1.parking_fee
                           * ((g.time - parked_since : ℕ) : ℚ) }
                     daily_expenses := g.daily_expenses
                       + originEntry.1.parking_fee
                         * ((g.time - parked_since : ℕ) : ℚ) } : Game) = gOut
                    ∧ e2 = e := by
                simpa using h
              refine ⟨rfl, rfl, rfl, rfl, rfl, rfl, rfl, rfl, rfl,
                .inr ⟨originEntry.1.parking_fee
                  * ((g.time - parked_since : ℕ) : ℚ), ?_, rfl, rfl⟩⟩
              unfold Game.parking_charge
              rw [hp]
              dsimp only
              rw [ho]
              dsimp only
              rw [hat, hoe]
            | ok fp =>
              rw [hc] at h
              simp at h

/-- Witness for the amended claim C1, at the out-of-range departure of the
example game: the post-error state differs from the pre-call state only by
the 10 $ parking charge. -/
theorem depart_plane_error_state_witness :
    ({ exGame with
       player := { exGame.player with cash := 1999990 }
       daily_expenses := 10 } : Game).airplanes = exGame.airplanes ∧
    ({ exGame with
       player := { exGame.player with cash := 1999990 }
       daily_expenses := 10 } : Game).map = exGame.map ∧
    ({ exGame with
       player := { exGame.player with cash := 1999990 }
       daily_expenses := 10 } : Game).events = exGame.events ∧
    ({ exGame with
       player := { exGame.player with cash := 1999990 }
       daily_expenses := 10 } : Game).arrival_times = exGame.arrival_times ∧
    ({ exGame with
       player := { exGame.player with cash := 1999990 }
       daily_expenses := 10 } : Game).time = exGame.time ∧
    ({ exGame with
       player := { exGame.player with cash := 1999990 }
       daily_expenses := 10 } : Game).stats = exGame.stats ∧
    ({ exGame with
       player := { exGame.player with cash := 1999990 }
       daily_expenses := 10 } : Game).daily_income = exGame.daily_income ∧
    ({ exGame with
       player := { exGame.player with cash := 1999990 }
       daily_expenses := 10 } : Game).player.fleet = exGame.player.fleet ∧
    ({ exGame with
       player := { exGame.player with cash := 1999990 }
       daily_expenses := 10 } : Game).player.orders_delivered
      = exGame.player.orders_delivered ∧
    (({ exGame with
        player := { exGame.player with cash := 1999990 }
        daily_expenses := 10 } : Game) = exGame ∨
      ∃ fee, exGame.parking_charge 0 = some fee ∧
        ({ exGame with
           player := { exGame.player with cash := 1999990 }
           daily_expenses := 10 } : Game).player.cash
          = exGame.player.cash - fee ∧
        ({ exGame with
           player := { exGame.player with cash := 1999990 }
           daily_expenses := 10 } : Game).daily_expenses
          = exGame.daily_expenses + fee) :=
  depart_plane_error_state exGame 0 1 9000
    { exGame with
      player := { exGame.player with cash := 1999990 }
      daily_expenses := 10 }
    (.OutOfRange 9000 (5000/3))
    (by
      norm_num [exGame, Game.depart_plane, exPlane, exAp0, exAp1,
        Airplane.new, AirplaneModel.specs, Airplane.consume_flight_fuel,
        Airplane.can_fly_to, Airplane.max_range, Airplane.endurance_hours])


section HeapLemmas

variable {α : Type} [Inhabited α]

omit [Inhabited α] in
theorem length_swapAt (l : List (Sched α)) (i j : ℕ) :
    (swapAt l i j).length = l.length := by
  unfold swapAt
  split <;> simp

omit [Inhabited α] in
theorem getElem?_swapAt (l : List (Sched α)) (i j k : ℕ)
    (hi : i < l.length) (hj : j < l.length) :
    (swapAt l i j)[k]? = if k = j then l[i]? else if k = i then l[j]?
      else l[k]? := by
  unfold swapAt
  rw [List.getElem?_eq_getElem hi, List.getElem?_eq_getElem hj]
  dsimp only
  rw [List.getElem?_set, List.getElem?_set]
  simp only [List.length_set]
  by_cases hkj : k = j
  · subst hkj
    simp [hj, List.getElem?_eq_getElem hi]
  · by_cases hki : k = i
    · subst hki
      simp [Ne.symm hkj, hkj, hi, List.getElem?_eq_getElem hj]
    · simp [Ne.symm hkj, Ne.symm hki, hkj, hki]

theorem timeAt_swapAt (l : List (Sched α)) (i j k : ℕ)
    (hi : i < l.length) (hj : j < l.length) :
    timeAt (swapAt l i j) k = if k = j then timeAt l i else if k = i then
      timeAt l j else timeAt l k := by
  unfold timeAt getSched
  rw [getElem?_swapAt l i j k hi hj]
  by_cases hkj : k = j
  · simp [hkj]
  · by_cases hki : k = i <;> (simp [hkj, hki]; try (split <;> rfl))

theorem root_min (l : List (Sched α)) (h : heapProp l) :
    ∀ k, k < l.length → timeAt l 0 ≤ timeAt l k := by
  intro k
  induction k using Nat.strong_induction_on with
  | _ k ih =>
    intro hk
    rcases Nat.eq_zero_or_pos k with rfl | hk0
    · exact le_refl _
    · have hpar : (k - 1) / 2 < k := by omega
      exact le_trans (ih _ hpar (by omega)) (h k hk hk0)


theorem length_siftUpF (fuel : ℕ) : ∀ (l : List (Sched α)) (start pos : ℕ),
    (siftUpF fuel l start pos).length = l.length := by
  induction fuel with
  | zero => intro l s p; rfl
  | succ fuel ih =>
    intro l s p
    rw [siftUpF]
    split
    · dsimp only
      split
      · rfl
      · rw [ih, length_swapAt]
    · rfl

theorem UpInv_step (l : List (Sched α)) (pos : ℕ) (hpos : 0 < pos)
    (hlen : pos < l.length) (hinv : UpInv l pos)
    (hswap : timeAt l pos < timeAt l ((pos - 1) / 2)) :
    UpInv (swapAt l ((pos - 1) / 2) pos) ((pos - 1) / 2) := by
  obtain ⟨ha, hb⟩ := hinv
  have hplt : (pos - 1) / 2 < pos := by omega
  have hpl : (pos - 1) / 2 < l.length := lt_trans hplt hlen
  have hT : ∀ k, timeAt (swapAt l ((pos - 1) / 2) pos) k
      = if k = pos then timeAt l ((pos - 1) / 2)
        else if k = (pos - 1) / 2 then timeAt l pos else timeAt l k :=
    fun k => timeAt_swapAt l ((pos - 1) / 2) pos k hpl hlen
  constructor
  · intro i hi hi0 hip
    rw [length_swapAt] at hi
    by_cases hipos : i = pos
    · have h1 : timeAt (swapAt l ((pos - 1) / 2) pos) pos
          = timeAt l ((pos - 1) / 2) := by rw [hT]; simp
      have h2 : timeAt (swapAt l ((pos - 1) / 2) pos) ((pos - 1) / 2)
          = timeAt l pos := by
        rw [hT, if_neg (by omega), if_pos rfl]
      rw [hipos, h2, h1]
      exact le_of_lt hswap
    · have hInotp : timeAt (swapAt l ((pos - 1) / 2) pos) i = timeAt l i := by
        rw [hT, if_neg hipos, if_neg hip]
      by_cases hparp : (i - 1) / 2 = (pos - 1) / 2
      · -- the parent of i is the new position: i is a sibling (or pos itself)
        have h2 : timeAt (swapAt l ((pos - 1) / 2) pos) ((i - 1) / 2)
            = timeAt l pos := by
          rw [hT, hparp, if_neg (by omega), if_pos rfl]
        rw [h2, hInotp]
        have hstep : timeAt l ((i - 1) / 2) ≤ timeAt l i :=
          ha i hi hi0 hipos
        rw [hparp] at hstep
        exact le_trans (le_of_lt hswap) hstep
      · by_cases hparpos : (i - 1) / 2 = pos
        · -- i is a child of pos
          have h2 : timeAt (swapAt l ((pos - 1) / 2) pos) ((i - 1) / 2)
              = timeAt l ((pos - 1) / 2) := by
            rw [hT, hparpos, if_pos rfl]
          rw [h2, hInotp]
          exact hb i hi hparpos hpos
        · have h2 : timeAt (swapAt l ((pos - 1) / 2) pos) ((i - 1) / 2)
              = timeAt l ((i - 1) / 2) := by
            rw [hT, if_neg hparpos, if_neg hparp]
          rw [h2, hInotp]
          exact ha i hi hi0 hipos
  · intro c hc hcp hp0
    rw [length_swapAt] at hc
    have hgp : ((pos - 1) / 2 - 1) / 2 < (pos - 1) / 2 := by omega
    have hgpT : timeAt (swapAt l ((pos - 1) / 2) pos) (((pos - 1) / 2 - 1) / 2)
        = timeAt l (((pos - 1) / 2 - 1) / 2) := by
      rw [hT, if_neg (by omega), if_neg (by omega)]
    rw [hgpT]
    by_cases hcpos : c = pos
    · have h1 : timeAt (swapAt l ((pos - 1) / 2) pos) pos
          = timeAt l ((pos - 1) / 2) := by rw [hT]; simp
      rw [hcpos, h1]
      exact ha ((pos - 1) / 2) hpl hp0 (by omega)
    · have hcne : c ≠ (pos - 1) / 2 := by omega
      have h1 : timeAt (swapAt l ((pos - 1) / 2) pos) c = timeAt l c := by
        rw [hT, if_neg hcpos, if_neg hcne]
      rw [h1]
      have s1 : timeAt l (((pos - 1) / 2 - 1) / 2) ≤ timeAt l ((pos - 1) / 2) :=
        ha ((pos - 1) / 2) hpl hp0 (by omega)
      have s2 : timeAt l ((pos - 1) / 2) ≤ timeAt l c := by
        have := ha c hc (by omega) hcpos
        rwa [hcp] at this
      exact le_trans s1 s2

theorem siftUpF_heap (fuel : ℕ) :
    ∀ (l : List (Sched α)) (pos : ℕ), pos ≤ fuel → pos < l.length →
      UpInv l pos → heapProp (siftUpF fuel l 0 pos) := by
  induction fuel with
  | zero =>
    intro l pos hf hlen hinv
    have hp0 : pos = 0 := by omega
    subst hp0
    intro i hi hi0
    exact hinv.1 i hi hi0 (by omega)
  | succ fuel ih =>
    intro l pos hf hlen hinv
    rw [siftUpF]
    by_cases h0 : 0 < pos
    · rw [if_pos h0]
      by_cases hcmp : Sched.cmpLe (getSched l pos) (getSched l ((pos - 1) / 2))
        = true
      · rw [if_pos hcmp]
        intro i hi hi0
        by_cases hip : i = pos
        · subst hip
          exact of_decide_eq_true hcmp
        · exact hinv.1 i hi hi0 hip
      · rw [if_neg hcmp]
        have hswap : timeAt l pos < timeAt l ((pos - 1) / 2) := by
          unfold Sched.cmpLe at hcmp
          simp only [decide_eq_true_eq] at hcmp
          exact lt_of_not_le hcmp
        exact ih (swapAt l ((pos - 1) / 2) pos) ((pos - 1) / 2)
          (by omega) (by rw [length_swapAt]; omega)
          (UpInv_step l pos h0 hlen hinv hswap)
    · rw [if_neg h0]
      intro i hi hi0
      exact hinv.1 i hi hi0 (by omega)


theorem WalkInv_step (l : List (Sched α)) (pos c : ℕ)
    (hlen : c < l.length) (hpos : pos < l.length) (hc0 : 0 < c)
    (hchild : (c - 1) / 2 = pos)
    (hmin : ∀ s, s < l.length → 0 < s → (s - 1) / 2 = pos →
      timeAt l c ≤ timeAt l s)
    (hinv : WalkInv l pos) :
    WalkInv (swapAt l pos c) c := by
  have hposc : pos < c := by omega
  have hT : ∀ k, timeAt (swapAt l pos c) k
      = if k = c then timeAt l pos
        else if k = pos then timeAt l c else timeAt l k :=
    fun k => timeAt_swapAt l pos c k hpos hlen
  constructor
  · intro i hi hi0 hic hpic
    rw [length_swapAt] at hi
    by_cases hipos : i = pos
    · have h1 : timeAt (swapAt l pos c) pos = timeAt l c := by
        rw [hT, if_neg (by omega), if_pos rfl]
      have h2 : timeAt (swapAt l pos c) ((pos - 1) / 2)
          = timeAt l ((pos - 1) / 2) := by
        rw [hT, if_neg (by omega), if_neg (by omega)]
      rw [hipos, h1, h2]
      exact hinv.2 c hlen hchild (by omega)
    · have hInotc : timeAt (swapAt l pos c) i = timeAt l i := by
        rw [hT, if_neg hic, if_neg hipos]
      by_cases hppos : (i - 1) / 2 = pos
      · have h2 : timeAt (swapAt l pos c) ((i - 1) / 2) = timeAt l c := by
          rw [hT, hppos, if_neg (by omega), if_pos rfl]
        rw [h2, hInotc]
        exact hmin i hi hi0 hppos
      · have h2 : timeAt (swapAt l pos c) ((i - 1) / 2)
            = timeAt l ((i - 1) / 2) := by
          rw [hT, if_neg hpic, if_neg hppos]
        rw [h2, hInotc]
        exact hinv.1 i hi hi0 hipos hppos
  · intro g hg hgc hc0
    rw [length_swapAt] at hg
    have h1 : timeAt (swapAt l pos c) ((c - 1) / 2) = timeAt l c := by
      rw [hT, hchild, if_neg (by omega), if_pos rfl]
    have h2 : timeAt (swapAt l pos c) g = timeAt l g := by
      rw [hT, if_neg (by omega), if_neg (by omega)]
    rw [h1, h2]
    have := hinv.1 g hg (by omega) (by omega) (by omega)
    rwa [hgc] at this

theorem length_siftDownWalkF (fuel : ℕ) :
    ∀ (l : List (Sched α)) (pos endIdx : ℕ),
      (siftDownWalkF fuel l pos endIdx).1.length = l.length := by
  induction fuel with
  | zero => intro l pos endIdx; rfl
  | succ fuel ih =>
    intro l pos endIdx
    rw [siftDownWalkF]
    dsimp only
    split
    · rw [ih, length_swapAt]
    · split
      · dsimp only
        rw [length_swapAt]
      · rfl

theorem siftDownWalkF_inv (fuel : ℕ) :
    ∀ (l : List (Sched α)) (pos endIdx : ℕ), endIdx = l.length →
      endIdx ≤ fuel + pos → pos < endIdx → WalkInv l pos →
      UpInv (siftDownWalkF fuel l pos endIdx).1
          (siftDownWalkF fuel l pos endIdx).2
        ∧ (siftDownWalkF fuel l pos endIdx).2
            < (siftDownWalkF fuel l pos endIdx).1.length := by
  induction fuel with
  | zero =>
    intro l pos endIdx hE hf hlen hinv
    omega
  | succ fuel ih =>
    intro l pos endIdx hE hf hlen hinv
    subst hE
    rw [siftDownWalkF]
    dsimp only
    by_cases h1 : 2 * pos + 1 + 1 < l.length
    · rw [if_pos h1]
      by_cases hcmp : Sched.cmpLe (getSched l (2 * pos + 1))
          (getSched l (2 * pos + 1 + 1)) = true
      · rw [if_pos hcmp]
        have hcLt : 2 * pos + 1 + 1 < l.length := h1
        have hmin : ∀ s, s < l.length → 0 < s → (s - 1) / 2 = pos →
            timeAt l (2 * pos + 1 + 1) ≤ timeAt l s := by
          intro s hs hs0 hsp
          have hs2 : s = 2 * pos + 1 ∨ s = 2 * pos + 2 := by omega
          unfold Sched.cmpLe at hcmp
          simp only [decide_eq_true_eq] at hcmp
          rcases hs2 with rfl | rfl
          · exact hcmp
          · exact le_refl _
        have hnext := WalkInv_step l pos (2 * pos + 1 + 1) hcLt
          (by omega) (by omega) (by omega) hmin hinv
        have := ih (swapAt l pos (2 * pos + 1 + 1)) (2 * pos + 1 + 1)
          l.length (by rw [length_swapAt]) (by omega) (by omega) hnext
        exact this
      · rw [if_neg hcmp]
        have hcLt : 2 * pos + 1 < l.length := by omega
        have hmin : ∀ s, s < l.length → 0 < s → (s - 1) / 2 = pos →
            timeAt l (2 * pos + 1) ≤ timeAt l s := by
          intro s hs hs0 hsp
          have hs2 : s = 2 * pos + 1 ∨ s = 2 * pos + 2 := by omega
          unfold Sched.cmpLe at hcmp
          simp only [decide_eq_true_eq] at hcmp
          rcases hs2 with rfl | rfl
          · exact le_refl _
          · exact le_of_lt (lt_of_not_le hcmp)
        have hnext := WalkInv_step l pos (2 * pos + 1) hcLt
          (by omega) (by omega) (by omega) hmin hinv
        have := ih (swapAt l pos (2 * pos + 1)) (2 * pos + 1)
          l.length (by rw [length_swapAt]) (by omega) (by omega) hnext
        exact this
    · rw [if_neg h1]
      by_cases h2 : 2 * pos + 1 + 1 = l.length
      · rw [if_pos h2]
        dsimp only
        rw [length_swapAt]
        have hcLt : 2 * pos + 1 < l.length := by omega
        have hT : ∀ k, timeAt (swapAt l pos (2 * pos + 1)) k
            = if k = 2 * pos + 1 then timeAt l pos
              else if k = pos then timeAt l (2 * pos + 1) else timeAt l k :=
          fun k => timeAt_swapAt l pos (2 * pos + 1) k (by omega) hcLt
        refine ⟨⟨?_, ?_⟩, by omega⟩
        · intro i hi hi0 hic
          rw [length_swapAt] at hi
          by_cases hipos : i = pos
          · have ht1 : timeAt (swapAt l pos (2 * pos + 1)) pos
                = timeAt l (2 * pos + 1) := by
              rw [hT, if_neg (by omega), if_pos rfl]
            have ht2 : timeAt (swapAt l pos (2 * pos + 1)) ((pos - 1) / 2)
                = timeAt l ((pos - 1) / 2) := by
              rw [hT, if_neg (by omega), if_neg (by omega)]
            rw [hipos, ht1, ht2]
            exact hinv.2 (2 * pos + 1) hcLt (by omega) (by omega)
          · have hpar : (i - 1) / 2 ≠ pos := by omega
            have hparc : (i - 1) / 2 ≠ 2 * pos + 1 := by omega
            have ht1 : timeAt (swapAt l pos (2 * pos + 1)) i = timeAt l i := by
              rw [hT, if_neg hic, if_neg hipos]
            have ht2 : timeAt (swapAt l pos (2 * pos + 1)) ((i - 1) / 2)
                = timeAt l ((i - 1) / 2) := by
              rw [hT, if_neg hparc, if_neg hpar]
            rw [ht1, ht2]
            exact hinv.1 i hi hi0 hipos hpar
        · intro c2 hc2 hc2p hcp0
          rw [length_swapAt] at hc2
          omega
      · rw [if_neg h2]
        dsimp only
        have hnochild : l.length ≤ 2 * pos + 1 := by omega
        refine ⟨⟨?_, hinv.2⟩, hlen⟩
        intro i hi hi0 hic
        exact hinv.1 i hi hi0 hic (by omega)


theorem slotsFrom_refl (l : List (Sched α)) : SlotsFrom l l :=
  fun k hk => ⟨k, hk, rfl⟩

theorem slotsFrom_trans {l1 l2 l3 : List (Sched α)}
    (h21 : SlotsFrom l2 l1) (h32 : SlotsFrom l3 l2) : SlotsFrom l3 l1 := by
  intro k hk
  obtain ⟨m, hm, he⟩ := h32 k hk
  obtain ⟨m2, hm2, he2⟩ := h21 m hm
  exact ⟨m2, hm2, he.trans he2⟩

theorem slotsFrom_swapAt (l : List (Sched α)) (i j : ℕ) :
    SlotsFrom (swapAt l i j) l := by
  by_cases hi : i < l.length
  · by_cases hj : j < l.length
    · intro k hk
      rw [length_swapAt] at hk
      rw [getElem?_swapAt l i j k hi hj]
      by_cases hkj : k = j
      · exact ⟨i, hi, by rw [if_pos hkj]⟩
      · by_cases hki : k = i
        · exact ⟨j, hj, by rw [if_neg hkj, if_pos hki]⟩
        · exact ⟨k, hk, by rw [if_neg hkj, if_neg hki]⟩
    · have hnone : l[j]? = none := List.getElem?_eq_none (by omega)
      unfold swapAt
      rw [hnone]
      cases l[i]? <;> exact slotsFrom_refl l
  · have hnone : l[i]? = none := List.getElem?_eq_none (by omega)
    unfold swapAt
    rw [hnone]
    exact slotsFrom_refl l

theorem slotsFrom_siftUpF (fuel : ℕ) :
    ∀ (l : List (Sched α)) (start pos : ℕ),
      SlotsFrom (siftUpF fuel l start pos) l := by
  induction fuel with
  | zero => intro l s p; exact slotsFrom_refl l
  | succ fuel ih =>
    intro l s p
    rw [siftUpF]
    split
    · dsimp only
      split
      · exact slotsFrom_refl l
      · exact slotsFrom_trans (slotsFrom_swapAt l _ p) (ih _ s _)
    · exact slotsFrom_refl l

theorem slotsFrom_siftDownWalkF (fuel : ℕ) :
    ∀ (l : List (Sched α)) (pos endIdx : ℕ),
      SlotsFrom (siftDownWalkF fuel l pos endIdx).1 l := by
  induction fuel with
  | zero => intro l pos endIdx; exact slotsFrom_refl l
  | succ fuel ih =>
    intro l pos endIdx
    rw [siftDownWalkF]
    dsimp only
    split
    · exact slotsFrom_trans (slotsFrom_swapAt l pos _) (ih _ _ endIdx)
    · split
      · exact slotsFrom_swapAt l pos _
      · exact slotsFrom_refl l

theorem slotsFrom_siftDownToBottom (l : List (Sched α)) (pos endIdx : ℕ) :
    SlotsFrom (siftDownToBottom l pos endIdx) l := by
  unfold siftDownToBottom siftUp
  exact slotsFrom_trans (slotsFrom_siftDownWalkF endIdx l pos endIdx)
    (slotsFrom_siftUpF _ _ pos _)

theorem timeAt_append_lt (l l2 : List (Sched α)) (i : ℕ) (h : i < l.length) :
    timeAt (l ++ l2) i = timeAt l i := by
  unfold timeAt getSched
  rw [List.getElem?_append, if_pos h]

theorem timeAt_set_ne (l : List (Sched α)) (i k : ℕ) (a : Sched α)
    (h : i ≠ k) : timeAt (l.set i a) k = timeAt l k := by
  unfold timeAt getSched
  rw [List.getElem?_set_ne h]

theorem timeAt_dropLast (l : List (Sched α)) (i : ℕ) (h : i < l.length - 1) :
    timeAt l.dropLast i = timeAt l i := by
  unfold timeAt getSched
  rw [List.getElem?_dropLast, if_pos h]

theorem heapProp_dropLast (l : List (Sched α)) (h : heapProp l) :
    heapProp l.dropLast := by
  intro i hi hi0
  rw [List.length_dropLast] at hi
  rw [timeAt_dropLast l i hi, timeAt_dropLast l ((i - 1) / 2) (by omega)]
  exact h i (by omega) hi0


theorem heapPush_heapProp (l : List (Sched α)) (e : Sched α)
    (h : heapProp l) : heapProp (heapPush l e) := by
  unfold heapPush siftUp
  apply siftUpF_heap l.length (l ++ [e]) l.length (le_refl _) (by simp)
  constructor
  · intro i hi hi0 hip
    simp only [List.length_append, List.length_singleton] at hi
    have hi2 : i < l.length := by omega
    rw [timeAt_append_lt l [e] i hi2,
      timeAt_append_lt l [e] ((i - 1) / 2) (by omega)]
    exact h i hi2 hi0
  · intro c hc hcp hpos0
    simp only [List.length_append, List.length_singleton] at hc
    omega

theorem heapPop_heapProp (l : List (Sched α)) (h : heapProp l) :
    heapProp (heapPop l).2 := by
  unfold heapPop
  cases hl : l.getLast? with
  | none =>
    intro i hi hi0
    simp at hi
  | some item =>
    dsimp only
    by_cases hre : l.dropLast.isEmpty
    · rw [if_pos hre]
      intro i hi hi0
      simp at hi
    · rw [if_neg hre]
      dsimp only
      have hne : l.dropLast ≠ [] := fun hh => hre (by simp [hh])
      have hpos : 0 < l.dropLast.length := List.length_pos.mpr hne
      have hlen0 : (l.dropLast.set 0 item).length = l.dropLast.length := by
        simp
      have hWI : WalkInv (l.dropLast.set 0 item) 0 := by
        constructor
        · intro i hi hi0 hic hpic
          rw [hlen0] at hi
          rw [timeAt_set_ne _ _ _ _ (Ne.symm hic),
            timeAt_set_ne _ _ _ _ (Ne.symm hpic)]
          exact heapProp_dropLast l h i hi hi0
        · intro c hc hcp h0
          omega
      unfold siftDownToBottom siftUp
      have hinv := siftDownWalkF_inv l.dropLast.length
        (l.dropLast.set 0 item) 0 l.dropLast.length hlen0.symm (by omega)
        hpos hWI
      exact siftUpF_heap _ _ _ (le_refl _) hinv.2 hinv.1

theorem heapPop_min (l : List (Sched α)) (h : heapProp l) (y : Sched α)
    (hy : (heapPop l).1 = some y) :
    ∀ k, k < l.length → y.time ≤ timeAt l k := by
  unfold heapPop at hy
  cases hl : l.getLast? with
  | none =>
    rw [hl] at hy
    exact Option.noConfusion hy
  | some item =>
    rw [hl] at hy
    dsimp only at hy
    have hnil : l ≠ [] := by
      intro hh
      rw [hh] at hl
      exact Option.noConfusion hl
    have hlpos : 0 < l.length := List.length_pos.mpr hnil
    by_cases hre : l.dropLast.isEmpty
    · rw [if_pos hre] at hy
      have hyi : item = y := by simpa using hy
      have hlen1 : l.length = 1 := by
        have h1 := List.length_dropLast l
        have h2 : l.dropLast.length = 0 := by
          rw [List.isEmpty_iff] at hre
          simp [hre]
        omega
      intro k hk
      have hk0 : k = 0 := by omega
      subst hk0
      have hsome : l[0]? = some item := by
        have hgl := List.getLast?_eq_getElem? l
        rw [hl, hlen1] at hgl
        exact hgl.symm
      unfold timeAt getSched
      rw [hsome]
      simp only [Option.getD_some]
      rw [hyi]
    · rw [if_neg hre] at hy
      dsimp only at hy
      have hne : l.dropLast ≠ [] := fun hh => hre (by simp [hh])
      have hdpos : 0 < l.dropLast.length := List.length_pos.mpr hne
      have hdpos2 : 0 < l.length - 1 := by
        rw [List.length_dropLast] at hdpos
        exact hdpos
      have hyv : getSched l.dropLast 0 = y := by simpa using hy
      have hsame : timeAt l 0 = y.time := by
        rw [← hyv]
        unfold timeAt getSched
        rw [List.getElem?_dropLast, if_pos hdpos2]
      intro k hk
      rw [← hsame]
      exact root_min l h k hk

theorem heapPop_slots (l : List (Sched α)) : SlotsFrom (heapPop l).2 l := by
  unfold heapPop
  cases hl : l.getLast? with
  | none =>
    intro k hk
    simp at hk
  | some item =>
    dsimp only
    by_cases hre : l.dropLast.isEmpty
    · rw [if_pos hre]
      intro k hk
      simp at hk
    · rw [if_neg hre]
      dsimp only
      have hne : l.dropLast ≠ [] := fun hh => hre (by simp [hh])
      have hdpos : 0 < l.dropLast.length := List.length_pos.mpr hne
      have hnil : l ≠ [] := by
        intro hh
        rw [hh] at hl
        exact Option.noConfusion hl
      have hlpos : 0 < l.length := List.length_pos.mpr hnil
      refine slotsFrom_trans ?_ (slotsFrom_siftDownToBottom _ 0 _)
      intro k hk
      simp only [List.length_set, List.length_dropLast] at hk
      by_cases hk0 : k = 0
      · subst hk0
        refine ⟨l.length - 1, by omega, ?_⟩
        rw [List.getElem?_set_eq_of_lt _ (by simp; omega)]
        rw [← List.getLast?_eq_getElem?, hl]
      · refine ⟨k, by omega, ?_⟩
        rw [List.getElem?_set_ne (Ne.symm hk0), List.getElem?_dropLast,
          if_pos (by omega)]

theorem heapPop_fst_is_slot (q : List (Sched α)) (z : Sched α)
    (hz : (heapPop q).1 = some z) :
    ∃ k, k < q.length ∧ q[k]? = some z := by
  unfold heapPop at hz
  cases hl : q.getLast? with
  | none =>
    rw [hl] at hz
    exact Option.noConfusion hz
  | some item =>
    rw [hl] at hz
    dsimp only at hz
    have hnil : q ≠ [] := by
      intro hh
      rw [hh] at hl
      exact Option.noConfusion hl
    have hqpos : 0 < q.length := List.length_pos.mpr hnil
    by_cases hre : q.dropLast.isEmpty
    · rw [if_pos hre] at hz
      obtain rfl : item = z := by simpa using hz
      refine ⟨q.length - 1, by omega, ?_⟩
      rw [← List.getLast?_eq_getElem?, hl]
    · rw [if_neg hre] at hz
      dsimp only at hz
      have hne : q.dropLast ≠ [] := fun hh => hre (by simp [hh])
      have hdpos : 0 < q.dropLast.length := List.length_pos.mpr hne
      have hdpos2 : 0 < q.length - 1 := by
        rw [List.length_dropLast] at hdpos
        exact hdpos
      obtain rfl : getSched q.dropLast 0 = z := by simpa using hz
      refine ⟨0, hqpos, ?_⟩
      unfold getSched
      rw [List.getElem?_dropLast, if_pos hdpos2,
        List.getElem?_eq_getElem hqpos]
      rfl


end HeapLemmas

/-- Claim C3 (counterexample): schedule an event at time 5 (insertion tag 0),
another at time 5 (insertion tag 1), then one at time 1 (tag 2), exactly as
`Game::schedule` pushes on the `BinaryHeap`.  The pops deliver tag 2 (time
1), then tag **1**, then tag **0**: the two time-5 events come out in
reverse insertion order, so equal-time events are not processed FIFO and pop
order is not lexicographic in (time, insertion index). -/
theorem heap_pop_not_fifo :
    (heapPop fifoTrace).1 = some ⟨1, 2⟩ ∧
    (heapPop (heapPop fifoTrace).2).1 = some ⟨5, 1⟩ ∧
    (heapPop (heapPop (heapPop fifoTrace).2).2).1 = some ⟨5, 0⟩ := by decide

/-- Claim C3 (amended): the queue pops by earliest time — pushing and
popping preserve the binary-heap shape of the backing array, a pop returns
an event whose time is minimal among all queued events, and consecutive pops
yield nondecreasing times — but ties between equal-time events are broken by
the heap's array manipulations, not by insertion order (see the
counterexample). -/
theorem heap_pop_time_ordered {α : Type} [Inhabited α]
    (l : List (Sched α)) (e : Sched α) (h : heapProp l) :
    heapProp (heapPush l e) ∧ heapProp (heapPop l).2 ∧
    ∀ y, (heapPop l).1 = some y →
      (∀ k, k < l.length → y.time ≤ timeAt l k) ∧
      ∀ z, (heapPop (heapPop l).2).1 = some z → y.time ≤ z.time := by
  refine ⟨heapPush_heapProp l e h, heapPop_heapProp l h, ?_⟩
  intro y hy
  refine ⟨heapPop_min l h y hy, ?_⟩
  intro z hz
  obtain ⟨k, hk, hkz⟩ := heapPop_fst_is_slot _ z hz
  obtain ⟨m, hm, hme⟩ := heapPop_slots l k hk
  have hlz : l[m]? = some z := by rw [← hme, hkz]
  have hmt : timeAt l m = z.time := by
    unfold timeAt getSched
    rw [hlz]
    rfl
  rw [← hmt]
  exact heapPop_min l h y hy m hm

/-- Witness for the amended claim C3 on a concrete three-event heap. -/
theorem heap_pop_time_ordered_witness :
    heapProp (heapPush exHeap ⟨3, 7⟩) ∧ heapProp (heapPop exHeap).2 ∧
    ∀ y, (heapPop exHeap).1 = some y →
      (∀ k, k < exHeap.length → y.time ≤ timeAt exHeap k) ∧
      ∀ z, (heapPop (heapPop exHeap).2).1 = some z → y.time ≤ z.time :=
  heap_pop_time_ordered exHeap ⟨3, 7⟩ (by decide)
end RustyRunways
